import Mathlib

/-!
# Bookstore microservices: record lifecycle over a shared collection

A shallow embedding of the Go services under `bookstore-microservices/`:
`books-post` (createBook), `books-put` (updateBook), `books-delete`
(deleteBook), `books-get` (getAllBooksAPI), `data-seeder` (prepareData) and
`web-server` (getAuthorsFromAPI, getYearsFromAPI).

Modelling conventions
* The MongoDB collection is a list of `BookStore` records in storage order.
  A filter `bson.M{"id": v}` selects the records whose `ID` equals `v`
  (exact for a non-empty `v`, the only kind the handlers and the seeder pass
  on to an insert);
  `bson.D{{}}` selects every record.  `UpdateOne` and `DeleteOne` act on the
  first selected record, `InsertOne` appends.
* A record is the decoded `BookStore` value.  For a non-empty id the decoded
  view is exact; the `omitempty` of the `id` tag, which tells an empty id
  apart from an absent one, is modelled over stored documents in `Bson`, and
  `bson_createBook_view` relates the two.
* A Go `error` is represented by its message (`err.Error()`), `nil` by `none`.
* Every driver call may fail; `Faults` says which calls fail during one
  request and with which message.  A failed write leaves the records as they
  were.
* `Collection.log` is ghost state: the driver calls performed so far.
* Go slices are lists where nil and empty cannot be told apart by the code;
  the slice returned by getAllBooksAPI is a `Slice`, which keeps nil apart,
  because `c.JSON` writes `null` for it.
* The startup of a service is a function of the outcomes of its connection
  attempts; sleeping between attempts is not modelled.
-/

namespace Bookstore

/-! ## Data model -/

/-- Storage identity `primitive.ObjectID`; `0` is the zero value (unset). -/
abbrev ObjectID := Nat

/-- The stored document, `type BookStore struct` of books-post, books-get and
data-seeder. -/
structure BookStore where
  MongoID : ObjectID
  ID : String
  BookName : String
  BookAuthor : String
  BookEdition : String
  BookPages : String
  BookYear : String
deriving DecidableEq, Repr

/-- The bound request, `type BookRequest struct` of books-post and books-put. -/
structure BookRequest where
  ID : String
  Title : String
  Author : String
  Pages : String
  Edition : String
  Year : String
deriving DecidableEq, Repr

/-- The public projection, `type BookResponse struct` of books-get and
web-server. -/
structure BookResponse where
  ID : String
  Title : String
  Author : String
  Pages : String
  Edition : String
  Year : String
deriving DecidableEq, Repr

/-- A JSON request body: each member is present or absent. -/
structure BookPayload where
  id : Option String
  title : Option String
  author : Option String
  pages : Option String
  edition : Option String
  year : Option String
deriving DecidableEq, Repr

/-- What `c.Bind(&bookReq)` leaves in the struct: a present member is copied,
an absent one keeps the zero value `""`. -/
def bind (p : BookPayload) : BookRequest :=
  { ID := p.id.getD "", Title := p.title.getD "", Author := p.author.getD "",
    Pages := p.pages.getD "", Edition := p.edition.getD "", Year := p.year.getD "" }

/-- An HTTP answer `c.JSON(status, map[string]string{key: value})`. -/
structure Response where
  status : Nat
  key : String
  value : String
deriving DecidableEq, Repr

def StatusOK : Nat := 200
def StatusCreated : Nat := 201
def StatusBadRequest : Nat := 400
def StatusNotFound : Nat := 404
def StatusConflict : Nat := 409
def StatusInternalServerError : Nat := 500

/-! ## The collection and the driver calls -/

/-- The driver calls the services make. -/
inductive DriverCall where
  | find
  | cursorAll
  | insertOne
  | updateOne
  | deleteOne
deriving DecidableEq, Repr

/-- The shared collection: its records, the next storage identity to hand out,
and the log of driver calls (ghost state). -/
structure Collection where
  docs : List BookStore
  nextOid : ObjectID
  log : List DriverCall
deriving DecidableEq, Repr

/-- The driver calls that fail during one request, each with its message. -/
structure Faults where
  find : Option String
  cursorAll : Option String
  insertOne : Option String
  updateOne : Option String
  deleteOne : Option String
deriving DecidableEq, Repr

/-- No driver call fails. -/
def noFaults : Faults :=
  { find := none, cursorAll := none, insertOne := none, updateOne := none, deleteOne := none }

/-- The two filters used: `bson.D{{}}` and `bson.M{"id": v}`. -/
inductive Filter where
  | all
  | idEq (v : String)
deriving DecidableEq, Repr

/-- Whether a decoded record is selected by a filter.  For `{"id": v}` with a
non-empty `v` this is the selection of the stored document (`selects_idEq`);
the stored documents themselves are in `Bson`. -/
def Filter.sel : Filter → BookStore → Bool
  | .all, _ => true
  | .idEq v, b => b.ID == v

/-- Append a driver call to the log. -/
def Collection.logged (c : Collection) (d : DriverCall) : Collection :=
  { c with log := c.log ++ [d] }

/-- The call `coll.Find(ctx, filter)`: a cursor over the selected records. -/
def Collection.Find (f : Faults) (c : Collection) (flt : Filter) :
    Except String (List BookStore) × Collection :=
  match f.find with
  | some e => (.error e, c.logged .find)
  | none => (.ok (c.docs.filter flt.sel), c.logged .find)

/-- The call `cursor.All(ctx, &results)`: decode the cursor into a slice. -/
def Collection.CursorAll (f : Faults) (c : Collection) (cursor : List BookStore) :
    Except String (List BookStore) × Collection :=
  match f.cursorAll with
  | some e => (.error e, c.logged .cursorAll)
  | none => (.ok cursor, c.logged .cursorAll)

/-- The document as stored by an insert: `_id` is `omitempty`, so a zero
`MongoID` is replaced by the fresh identity `oid`. -/
def assignOid (oid : ObjectID) (doc : BookStore) : BookStore :=
  if doc.MongoID = 0 then { doc with MongoID := oid } else doc

/-- The call `coll.InsertOne(ctx, doc)`, seen through the decoder: the record
the new document decodes to is appended (`unmarshal_marshal`). -/
def Collection.InsertOne (f : Faults) (c : Collection) (doc : BookStore) :
    Option String × Collection :=
  match f.insertOne with
  | some e => (some e, c.logged .insertOne)
  | none =>
    (none, { docs := c.docs ++ [assignOid c.nextOid doc], nextOid := c.nextOid + 1,
             log := c.log ++ [.insertOne] })

/-- Replace the first record satisfying `p` by its image under `g`; the count
of matched records (0 or 1) is returned with the new list. -/
def updateFirst (p : BookStore → Bool) (g : BookStore → BookStore) :
    List BookStore → Nat × List BookStore
  | [] => (0, [])
  | b :: bs =>
    if p b then (1, g b :: bs)
    else ((updateFirst p g bs).1, b :: (updateFirst p g bs).2)

/-- Remove the first record satisfying `p`; the count of deleted records
(0 or 1) is returned with the new list. -/
def deleteFirst (p : BookStore → Bool) : List BookStore → Nat × List BookStore
  | [] => (0, [])
  | b :: bs =>
    if p b then (1, bs)
    else ((deleteFirst p bs).1, b :: (deleteFirst p bs).2)

/-- The call `coll.UpdateOne(ctx, filter, {"$set": ...})`; the result carries
`MatchedCount`. -/
def Collection.UpdateOne (f : Faults) (c : Collection) (flt : Filter)
    (set : BookStore → BookStore) : Except String Nat × Collection :=
  match f.updateOne with
  | some e => (.error e, c.logged .updateOne)
  | none =>
    (.ok (updateFirst flt.sel set c.docs).1,
      { c with docs := (updateFirst flt.sel set c.docs).2, log := c.log ++ [.updateOne] })

/-- The call `coll.DeleteOne(ctx, filter)`; the result carries `DeletedCount`. -/
def Collection.DeleteOne (f : Faults) (c : Collection) (flt : Filter) :
    Except String Nat × Collection :=
  match f.deleteOne with
  | some e => (.error e, c.logged .deleteOne)
  | none =>
    (.ok (deleteFirst flt.sel c.docs).1,
      { c with docs := (deleteFirst flt.sel c.docs).2, log := c.log ++ [.deleteOne] })

/-! ## books-post -/

/-- The message `fmt.Errorf("book with ID %s already exists", id)`. -/
def existsMsg (id : String) : String := "book with ID " ++ id ++ " already exists"

/-- The message `fmt.Errorf("book with ID %s not found", id)`. -/
def notFoundMsg (id : String) : String := "book with ID " ++ id ++ " not found"

/-- The record built by createBook from the request (`MongoID` left zero). -/
def newBook (bookReq : BookRequest) : BookStore :=
  { MongoID := 0, ID := bookReq.ID, BookName := bookReq.Title, BookAuthor := bookReq.Author,
    BookEdition := bookReq.Edition, BookPages := bookReq.Pages, BookYear := bookReq.Year }

/-- The function `createBook` of books-post/main.go. -/
def createBook (f : Faults) (coll : Collection) (bookReq : BookRequest) :
    Option String × Collection :=
  match coll.Find f (.idEq bookReq.ID) with
  | (.error err, c1) => (some err, c1)
  | (.ok cursor, c1) =>
    match c1.CursorAll f cursor with
    | (.error err, c2) => (some err, c2)
    | (.ok results, c2) =>
      if results.length > 0 then (some (existsMsg bookReq.ID), c2)
      else c2.InsertOne f (newBook bookReq)

/-- The handler of `POST /api/books`; `body = none` is a body `c.Bind`
rejects. -/
def postHandler (f : Faults) (coll : Collection) (body : Option BookPayload) :
    Response × Collection :=
  match body with
  | none => (⟨StatusBadRequest, "error", "Invalid request body"⟩, coll)
  | some p =>
    let bookReq := bind p
    if bookReq.ID == "" || bookReq.Title == "" || bookReq.Author == "" then
      (⟨StatusBadRequest, "error", "ID, title, and author are required fields"⟩, coll)
    else
      match createBook f coll bookReq with
      | (some err, c) => (⟨StatusConflict, "error", err⟩, c)
      | (none, c) => (⟨StatusCreated, "message", "Book created successfully"⟩, c)

/-! ## books-post over stored documents

The functions above work on the records as decoded.  Here the stored documents
are explicit, so that the `omitempty` of the `id` tag is visible: a record with
an empty `ID` is stored without an `id` member, and the filter `{"id": v}`
selects only documents that have the member. -/

namespace Bson

/-- A stored document: `_id`, an `id` member that is present or absent, and the
five textual members. -/
structure Document where
  oid : ObjectID
  id : Option String
  bookname : String
  bookauthor : String
  bookedition : String
  bookpages : String
  bookyear : String
deriving DecidableEq, Repr

/-- The document written for a `BookStore` under its struct tags:
`bson:"_id,omitempty"` and `bson:"id,omitempty"` leave a zero member out (a
missing `_id` is then assigned `fresh`); the other members have no `omitempty`
and are always written. -/
def marshal (fresh : ObjectID) (b : BookStore) : Document :=
  { oid := if b.MongoID = 0 then fresh else b.MongoID,
    id := if b.ID = "" then none else some b.ID,
    bookname := b.BookName, bookauthor := b.BookAuthor, bookedition := b.BookEdition,
    bookpages := b.BookPages, bookyear := b.BookYear }

/-- The `BookStore` a document decodes to: an absent member leaves the zero
value. -/
def unmarshal (d : Document) : BookStore :=
  { MongoID := d.oid, ID := d.id.getD "", BookName := d.bookname, BookAuthor := d.bookauthor,
    BookEdition := d.bookedition, BookPages := d.bookpages, BookYear := d.bookyear }

/-- Whether a document is selected by a filter: `{"id": v}` selects the
documents whose `id` member is present and equal to `v`. -/
def selects : Filter → Document → Bool
  | .all, _ => true
  | .idEq v, d => d.id == some v

/-- The collection as stored documents. -/
structure Collection where
  docs : List Document
  nextOid : ObjectID
  log : List DriverCall
deriving DecidableEq, Repr

/-- The records a collection decodes to. -/
def Collection.view (c : Collection) : Bookstore.Collection :=
  { docs := c.docs.map unmarshal, nextOid := c.nextOid, log := c.log }

/-- The call `coll.Find(ctx, filter)`: a cursor over the selected documents. -/
def Collection.Find (f : Faults) (c : Collection) (flt : Filter) :
    Except String (List Document) × Collection :=
  match f.find with
  | some e => (.error e, { c with log := c.log ++ [.find] })
  | none => (.ok (c.docs.filter (selects flt)), { c with log := c.log ++ [.find] })

/-- The call `cursor.All(ctx, &results)`: decode every document of the cursor. -/
def Collection.CursorAll (f : Faults) (c : Collection) (cursor : List Document) :
    Except String (List BookStore) × Collection :=
  match f.cursorAll with
  | some e => (.error e, { c with log := c.log ++ [.cursorAll] })
  | none => (.ok (cursor.map unmarshal), { c with log := c.log ++ [.cursorAll] })

/-- The call `coll.InsertOne(ctx, doc)`. -/
def Collection.InsertOne (f : Faults) (c : Collection) (doc : BookStore) :
    Option String × Collection :=
  match f.insertOne with
  | some e => (some e, { c with log := c.log ++ [.insertOne] })
  | none =>
    (none, { docs := c.docs ++ [marshal c.nextOid doc], nextOid := c.nextOid + 1,
             log := c.log ++ [.insertOne] })

/-- The function `createBook` of books-post/main.go, over stored documents. -/
def createBook (f : Faults) (coll : Collection) (bookReq : BookRequest) :
    Option String × Collection :=
  match coll.Find f (.idEq bookReq.ID) with
  | (.error err, c1) => (some err, c1)
  | (.ok cursor, c1) =>
    match c1.CursorAll f cursor with
    | (.error err, c2) => (some err, c2)
    | (.ok results, c2) =>
      if results.length > 0 then (some (existsMsg bookReq.ID), c2)
      else c2.InsertOne f (newBook bookReq)

end Bson

/-! ## books-put -/

/-- The update document `{"$set": {...}}` of updateBook applied to a record:
the five textual fields are overwritten, `_id` and `id` are not named. -/
def setFields (bookReq : BookRequest) (b : BookStore) : BookStore :=
  { b with BookName := bookReq.Title, BookAuthor := bookReq.Author,
           BookEdition := bookReq.Edition, BookPages := bookReq.Pages,
           BookYear := bookReq.Year }

/-- The function `updateBook` of books-put/main.go. -/
def updateBook (f : Faults) (coll : Collection) (id : String) (bookReq : BookRequest) :
    Option String × Collection :=
  match coll.UpdateOne f (.idEq id) (setFields bookReq) with
  | (.error err, c) => (some err, c)
  | (.ok matchedCount, c) =>
    if matchedCount == 0 then (some (notFoundMsg id), c) else (none, c)

/-- The handler of `PUT /api/books/:id`. -/
def putHandler (f : Faults) (coll : Collection) (id : String) (body : Option BookPayload) :
    Response × Collection :=
  match body with
  | none => (⟨StatusBadRequest, "error", "Invalid request body"⟩, coll)
  | some p =>
    let bookReq := bind p
    if bookReq.Title == "" || bookReq.Author == "" then
      (⟨StatusBadRequest, "error", "Title and author are required fields"⟩, coll)
    else
      match updateBook f coll id bookReq with
      | (some err, c) =>
        if err == notFoundMsg id then (⟨StatusNotFound, "error", err⟩, c)
        else (⟨StatusInternalServerError, "error", err⟩, c)
      | (none, c) => (⟨StatusOK, "message", "Book updated successfully"⟩, c)

/-! ## books-delete -/

/-- The function `deleteBook` of books-delete/main.go. -/
def deleteBook (f : Faults) (coll : Collection) (id : String) : Option String × Collection :=
  match coll.DeleteOne f (.idEq id) with
  | (.error err, c) => (some err, c)
  | (.ok deletedCount, c) =>
    if deletedCount == 0 then (some (notFoundMsg id), c) else (none, c)

/-- The handler of `DELETE /api/books/:id`. -/
def deleteHandler (f : Faults) (coll : Collection) (id : String) : Response × Collection :=
  match deleteBook f coll id with
  | (some err, c) =>
    if err == notFoundMsg id then (⟨StatusNotFound, "error", err⟩, c)
    else (⟨StatusInternalServerError, "error", err⟩, c)
  | (none, c) => (⟨StatusOK, "message", "Book deleted successfully"⟩, c)

/-! ## books-get -/

/-- The projection built in the loop of getAllBooksAPI. -/
def toResponse (res : BookStore) : BookResponse :=
  { ID := res.ID, Title := res.BookName, Author := res.BookAuthor, Pages := res.BookPages,
    Edition := res.BookEdition, Year := res.BookYear }

/-- A Go slice: `none` is the nil slice, `some l` a non-nil slice holding `l`
(`some []` is `[]T{}`). -/
abbrev Slice (α : Type) := Option (List α)

/-- The builtin `append(s, x)`: the result is never nil. -/
def Slice.append {α : Type} (s : Slice α) (x : α) : Slice α := some (s.getD [] ++ [x])

/-- The elements of a slice; the nil slice has none. -/
def Slice.elems {α : Type} (s : Slice α) : List α := s.getD []

/-- How a Go call ends: it returns a value or it panics. -/
inductive Completion (α : Type) where
  | returned (value : α)
  | panicked (msg : String)
deriving DecidableEq, Repr

/-- The JSON text `encoding/json` writes for a `[]BookResponse`: `null` for the
nil slice, an array for a non-nil one. -/
inductive JsonBody where
  | null
  | array (items : List BookResponse)
deriving DecidableEq, Repr

/-- The encoding of a slice by `c.JSON`. -/
def encodeJSON : Slice BookResponse → JsonBody
  | none => .null
  | some items => .array items

/-- The records a JSON body lists. -/
def JsonBody.items : JsonBody → List BookResponse
  | .null => []
  | .array items => items

/-- The runtime message of calling a method of a nil `*mongo.Collection`. -/
def nilCollectionMsg : String :=
  "runtime error: invalid memory address or nil pointer dereference"

/-- The function `getAllBooksAPI` of books-get/main.go.  The handle `coll` is
`none` when it is the nil pointer left by a start without connection; then
`coll.Find` panics.  `ret` is declared nil and only `append` makes it non-nil;
the two error paths return the literal `[]BookResponse{}`. -/
def getAllBooksAPI (f : Faults) (coll : Option Collection) :
    Completion (Slice BookResponse) × Option Collection :=
  match coll with
  | none => (.panicked nilCollectionMsg, none)
  | some c =>
    match c.Find f .all with
    | (.error _, c1) => (.returned (some []), some c1)
    | (.ok cursor, c1) =>
      match c1.CursorAll f cursor with
      | (.error _, c2) => (.returned (some []), some c2)
      | (.ok results, c2) =>
        (.returned (results.foldl (fun ret res => Slice.append ret (toResponse res)) none),
          some c2)

/-- The handler of `GET /api/books`: status and JSON body, or the panic of
getAllBooksAPI, after which no response is written. -/
def getHandler (f : Faults) (coll : Option Collection) :
    Completion (Nat × JsonBody) × Option Collection :=
  match getAllBooksAPI f coll with
  | (.returned books, c) => (.returned (StatusOK, encodeJSON books), c)
  | (.panicked msg, c) => (.panicked msg, c)

/-! ## data-seeder -/

/-- How a run of the seed job ends: the loop completes, the process panics, or
`log.Fatal` exits it. -/
inductive SeedOutcome where
  | completed
  | panicked (msg : String)
  | fatal (msg : String)
deriving DecidableEq, Repr

/-- The literal `startData` of prepareData. -/
def startData : List BookStore :=
  [ { MongoID := 0, ID := "example1", BookName := "The Vortex",
      BookAuthor := "JosÃ© Eustasio Rivera", BookEdition := "958-30-0804-4",
      BookPages := "292", BookYear := "1924" },
    { MongoID := 0, ID := "example2", BookName := "Frankenstein",
      BookAuthor := "Mary Shelley", BookEdition := "978-3-649-64609-9",
      BookPages := "280", BookYear := "1818" },
    { MongoID := 0, ID := "example3", BookName := "The Black Cat",
      BookAuthor := "Edgar Allan Poe", BookEdition := "978-3-99168-238-7",
      BookPages := "280", BookYear := "1843" } ]

/-- The runtime message of a nil dereference: the error of `coll.Find` is
overwritten unread, so after a failed Find `cursor.All` runs on a nil cursor. -/
def nilCursorMsg : String := "runtime error: invalid memory address or nil pointer dereference"

/-- One iteration of the loop of prepareData. -/
def seedBook (f : Faults) (coll : Collection) (book : BookStore) : SeedOutcome × Collection :=
  match coll.Find f (.idEq book.ID) with
  | (.error _, c1) => (.panicked nilCursorMsg, c1)
  | (.ok cursor, c1) =>
    match c1.CursorAll f cursor with
    | (.error err, c2) => (.panicked err, c2)
    | (.ok results, c2) =>
      if results.length > 1 then (.fatal "more records were found", c2)
      else if results.length == 0 then
        match c2.InsertOne f book with
        | (some err, c3) => (.panicked err, c3)
        | (none, c3) => (.completed, c3)
      else (.completed, c2)

/-- The loop `for _, book := range data` of prepareData; `fs i` are the faults
during iteration `i`.  A panic or fatal exit ends the run. -/
def seedLoop (fs : Nat → Faults) : Nat → List BookStore → Collection → SeedOutcome × Collection
  | _, [], coll => (.completed, coll)
  | i, book :: rest, coll =>
    match seedBook (fs i) coll book with
    | (.completed, c) => seedLoop fs (i + 1) rest c
    | (.panicked msg, c) => (.panicked msg, c)
    | (.fatal msg, c) => (.fatal msg, c)

/-- The function `prepareData` of data-seeder/main.go. -/
def prepareData (fs : Nat → Faults) (coll : Collection) : SeedOutcome × Collection :=
  seedLoop fs 0 startData coll

/-- The identifiers of the canonical records. -/
def canonicalIds : List String := startData.map BookStore.ID

/-! ## web-server -/

namespace WebServer

/-- The template record, `type BookStore struct` of web-server/main.go (it has
no year field). -/
structure BookStore where
  ID : String
  BookName : String
  BookAuthor : String
  BookEdition : String
  BookPages : String
deriving DecidableEq, Repr

/-- A Go `map[string]bool` as an association list with distinct keys, in the
order the keys were first set. -/
abbrev StringSet := List (String × Bool)

/-- The assignment `m[k] = v`. -/
def mapSet (m : StringSet) (k : String) (v : Bool) : StringSet :=
  if m.any (fun e => e.1 == k) then m.map (fun e => if e.1 == k then (k, v) else e)
  else m ++ [(k, v)]

/-- The keys visited by `for k := range m`.  Go leaves the order unspecified;
the model visits them in the order they were first set. -/
def rangeKeys (m : StringSet) : List String := m.map Prod.fst

/-- A row `map[string]interface{}{key: value}` handed to the template. -/
abbrev Row := List (String × String)

/-- The function `getBooksFromAPI`; `fetched` is the outcome of the GET to the
Read service followed by the JSON decoding into `[]BookResponse`. -/
def getBooksFromAPI (fetched : Except String (List BookResponse)) :
    Except String (List BookStore) :=
  match fetched with
  | .error err => .error err
  | .ok books =>
    .ok (books.foldl (fun result book => result ++
      [{ ID := book.ID, BookName := book.Title, BookAuthor := book.Author,
         BookEdition := book.Edition, BookPages := book.Pages }]) [])

/-- The function `getAuthorsFromAPI`. -/
def getAuthorsFromAPI (fetched : Except String (List BookResponse)) :
    Except String (List Row) :=
  match getBooksFromAPI fetched with
  | .error err => .error err
  | .ok books =>
    let authorsMap : StringSet := books.foldl (fun m book => mapSet m book.BookAuthor true) []
    .ok ((rangeKeys authorsMap).foldl (fun authors author => authors ++ [[("Author", author)]]) [])

/-- The function `getYearsFromAPI`. -/
def getYearsFromAPI (fetched : Except String (List BookResponse)) :
    Except String (List Row) :=
  match fetched with
  | .error err => .error err
  | .ok books =>
    let yearsMap : StringSet := books.foldl (fun m book => mapSet m book.Year true) []
    .ok ((rangeKeys yearsMap).foldl (fun years year => years ++ [[("Year", year)]]) [])

/-- The values a list of rows carries under `key`. -/
def rowValues (key : String) (rows : List Row) : List String :=
  rows.flatMap (fun row => (row.filter (fun e => e.1 == key)).map Prod.snd)

end WebServer

/-! ## Uniqueness of the business key -/

/-- At most one record per `ID`. -/
def UniqueIds (docs : List BookStore) : Prop := (docs.map BookStore.ID).Nodup

instance (docs : List BookStore) : Decidable (UniqueIds docs) :=
  inferInstanceAs (Decidable (docs.map BookStore.ID).Nodup)

/-- The number of records carrying `id`. -/
def countId (id : String) (docs : List BookStore) : Nat :=
  (docs.filter (fun b => b.ID == id)).length

/-! ## Sequential execution of the services -/

/-- One operation against the collection. -/
inductive Op where
  | create (body : Option BookPayload)
  | update (id : String) (body : Option BookPayload)
  | delete (id : String)
  | seed
deriving DecidableEq, Repr

/-- Run one operation to completion, without storage faults. -/
def Op.run (coll : Collection) : Op → Collection
  | .create body => (postHandler noFaults coll body).2
  | .update id body => (putHandler noFaults coll id body).2
  | .delete id => (deleteHandler noFaults coll id).2
  | .seed => (prepareData (fun _ => noFaults) coll).2

/-- Run a sequence of operations one at a time. -/
def runOps (coll : Collection) (ops : List Op) : Collection := ops.foldl Op.run coll

/-! ## Interleaved execution of Create calls

A Create call makes its existence query (`Find` and `cursor.All`) and its
`InsertOne` as two separate driver calls; another call may run in between. -/

/-- The progress of one `POST /api/books` call. -/
inductive CreateCall where
  | received (body : Option BookPayload)
  | queried (bookReq : BookRequest) (results : List BookStore)
  | answered (r : Response)
deriving DecidableEq, Repr

/-- Advance one call to its next driver interaction: from the request to the
end of the existence query, and from there to the answer. -/
def CreateCall.step (f : Faults) (coll : Collection) : CreateCall → CreateCall × Collection
  | .received none => (.answered ⟨StatusBadRequest, "error", "Invalid request body"⟩, coll)
  | .received (some p) =>
    let bookReq := bind p
    if bookReq.ID == "" || bookReq.Title == "" || bookReq.Author == "" then
      (.answered ⟨StatusBadRequest, "error", "ID, title, and author are required fields"⟩, coll)
    else
      match coll.Find f (.idEq bookReq.ID) with
      | (.error err, c1) => (.answered ⟨StatusConflict, "error", err⟩, c1)
      | (.ok cursor, c1) =>
        match c1.CursorAll f cursor with
        | (.error err, c2) => (.answered ⟨StatusConflict, "error", err⟩, c2)
        | (.ok results, c2) => (.queried bookReq results, c2)
  | .queried bookReq results =>
    if results.length > 0 then
      (.answered ⟨StatusConflict, "error", existsMsg bookReq.ID⟩, coll)
    else
      match coll.InsertOne f (newBook bookReq) with
      | (some err, c) => (.answered ⟨StatusConflict, "error", err⟩, c)
      | (none, c) => (.answered ⟨StatusCreated, "message", "Book created successfully"⟩, c)
  | .answered r => (.answered r, coll)

/-- Run the calls under a schedule: each entry names the call that advances
next. -/
def runSchedule (f : Faults) : List Nat → Collection × List CreateCall →
    Collection × List CreateCall
  | [], s => s
  | i :: rest, (coll, calls) =>
    match calls.get? i with
    | none => runSchedule f rest (coll, calls)
    | some call => runSchedule f rest ((call.step f coll).2, calls.set i (call.step f coll).1)

/-- The status a call has answered with, if it has answered. -/
def CreateCall.status : CreateCall → Option Nat
  | .answered r => some r.status
  | _ => none

/-! ## The round trip of the four services -/

/-- The Create body `{id, title, author}`: the optional members are absent. -/
def createBody (b T A : String) : BookPayload :=
  { id := some b, title := some T, author := some A, pages := none, edition := none,
    year := none }

/-- The Update body `{title, author}`: id and the optional members are absent. -/
def updateBody (T A : String) : BookPayload :=
  { id := none, title := some T, author := some A, pages := none, edition := none,
    year := none }

/-- The collection after `POST /api/books` with `{id: b, title: T, author: A}`. -/
def afterCreate (coll : Collection) (b T A : String) : Collection :=
  (postHandler noFaults coll (some (createBody b T A))).2

/-- The collection after the Create and then `PUT /api/books/b` with
`{title: T2, author: A2}`. -/
def afterUpdate (coll : Collection) (b T A T2 A2 : String) : Collection :=
  (putHandler noFaults (afterCreate coll b T A) b (some (updateBody T2 A2))).2

/-- The collection after the Create, the Update and then `DELETE /api/books/b`. -/
def afterDelete (coll : Collection) (b T A T2 A2 : String) : Collection :=
  (deleteHandler noFaults (afterUpdate coll b T A T2 A2) b).2

/-- What `GET /api/books` returns on a collection, without faults. -/
def read (coll : Collection) : List BookResponse :=
  match (getHandler noFaults (some coll)).1 with
  | .returned (_, body) => body.items
  | .panicked _ => []

/-! ## Startup: the connection retry loop of each service -/

/-- The outcome of one attempt: the error of `mongo.Connect` and, when that
succeeded, the error of `client.Ping`. -/
structure Attempt where
  connect : Option String
  ping : Option String
deriving DecidableEq, Repr

/-- The error `connectToMongoDB` returns for an attempt: connect, then ping. -/
def connectToMongoDB (a : Attempt) : Option String :=
  match a.connect with
  | some err => some err
  | none => a.ping

/-- The loop `for i := 0; i < n; i++ { ..., err = connectToMongoDB(); if err
== nil { break }; ... }` from iteration `i` with `remaining` iterations left:
the number of attempts made when the loop ends and the final value of `err`. -/
def retryLoop (outcomes : Nat → Attempt) : (remaining : Nat) → (i : Nat) →
    (err : Option String) → Nat × Option String
  | 0, i, err => (i, err)
  | remaining + 1, i, _ =>
    match connectToMongoDB (outcomes i) with
    | none => (i + 1, none)
    | some e => retryLoop outcomes remaining (i + 1) (some e)

/-- How the startup of a service ends: it reaches `e.Start` and serves, with
or without a connection, or the process panics before that. -/
inductive Startup where
  | serving (attempts : Nat) (connected : Bool)
  | aborted (attempts : Nat) (msg : String)
deriving DecidableEq, Repr

/-- The number of connection attempts a startup made. -/
def Startup.attempts : Startup → Nat
  | .serving k _ => k
  | .aborted k _ => k

/-- Whether the service begins serving requests. -/
def Startup.serves : Startup → Bool
  | .serving _ _ => true
  | .aborted _ _ => false

namespace BooksPost

/-- The startup of books-post/main.go: 10 attempts, `panic` when the last one
failed. -/
def main (outcomes : Nat → Attempt) : Startup :=
  match retryLoop outcomes 10 0 none with
  | (k, none) => .serving k true
  | (k, some err) => .aborted k ("Failed to connect to MongoDB after 10 attempts: " ++ err)

end BooksPost

namespace BooksDelete

/-- The startup of books-delete/main.go: 10 attempts, `panic` when the last one
failed. -/
def main (outcomes : Nat → Attempt) : Startup :=
  match retryLoop outcomes 10 0 none with
  | (k, none) => .serving k true
  | (k, some err) => .aborted k ("Failed to connect to MongoDB after 10 attempts: " ++ err)

end BooksDelete

namespace BooksPut

/-- The startup of books-put/main.go: 5 attempts; when the last one failed a
warning is printed and the service goes on to `e.Start` ("Continue anyway for
testing"). -/
def main (outcomes : Nat → Attempt) : Startup :=
  match retryLoop outcomes 5 0 none with
  | (k, none) => .serving k true
  | (k, some _) => .serving k false

end BooksPut

namespace BooksGet

/-- The startup of books-get/main.go: 5 attempts; when the last one failed a
warning is printed and the service goes on to `e.Start`. -/
def main (outcomes : Nat → Attempt) : Startup :=
  match retryLoop outcomes 5 0 none with
  | (k, none) => .serving k true
  | (k, some _) => .serving k false

end BooksGet

end Bookstore

/-! # Theorems -/

namespace Bookstore

/-! ## Driver calls without faults -/

theorem find_noFaults (c : Collection) (flt : Filter) :
    c.Find noFaults flt = (.ok (c.docs.filter flt.sel), c.logged .find) := rfl

theorem cursorAll_noFaults (c : Collection) (cur : List BookStore) :
    c.CursorAll noFaults cur = (.ok cur, c.logged .cursorAll) := rfl

theorem filter_idEq_eq_nil_iff (docs : List BookStore) (id : String) :
    docs.filter (Filter.idEq id).sel = [] ↔ ¬ ∃ b ∈ docs, b.ID = id := by
  simp [List.filter_eq_nil_iff, Filter.sel]

theorem length_filter_idEq (docs : List BookStore) (id : String) :
    (docs.filter (Filter.idEq id).sel).length = countId id docs := rfl

theorem countId_pos_iff (docs : List BookStore) (id : String) :
    0 < countId id docs ↔ ∃ b ∈ docs, b.ID = id := by
  simp [countId, List.length_pos, List.filter_eq_nil_iff]

/-- What createBook does without faults, in closed form. -/
theorem createBook_noFaults (coll : Collection) (bookReq : BookRequest) :
    createBook noFaults coll bookReq =
      if 0 < countId bookReq.ID coll.docs then
        (some (existsMsg bookReq.ID), (coll.logged .find).logged .cursorAll)
      else
        (none, { docs := coll.docs ++ [{ newBook bookReq with MongoID := coll.nextOid }],
                 nextOid := coll.nextOid + 1,
                 log := coll.log ++ [.find, .cursorAll, .insertOne] }) := by
  simp only [createBook, find_noFaults, cursorAll_noFaults, Collection.logged,
    length_filter_idEq, gt_iff_lt]
  split
  · rfl
  · simp [Collection.InsertOne, noFaults, newBook, assignOid]

/-! ## createBook over stored documents -/

theorem unmarshal_marshal (fresh : ObjectID) (b : BookStore) :
    Bson.unmarshal (Bson.marshal fresh b) = assignOid fresh b := by
  unfold Bson.unmarshal Bson.marshal assignOid
  by_cases h0 : b.MongoID = 0 <;> by_cases h1 : b.ID = "" <;> simp [h0, h1]
  cases b
  simp_all

/-- For a non-empty `v` the filter `{"id": v}` selects a document exactly when
the decoded record carries `v`. -/
theorem selects_idEq (v : String) (hv : v ≠ "") (d : Bson.Document) :
    Bson.selects (.idEq v) d = (Filter.idEq v).sel (Bson.unmarshal d) := by
  unfold Bson.selects Filter.sel Bson.unmarshal
  cases h : d.id with
  | none =>
    have : ("" == v) = false := by simpa using fun hc => hv hc.symm
    simp [this, h]
  | some x => simp [h]

theorem filter_selects_map (v : String) (hv : v ≠ "") (docs : List Bson.Document) :
    (docs.filter (Bson.selects (.idEq v))).map Bson.unmarshal =
      (docs.map Bson.unmarshal).filter (Filter.idEq v).sel := by
  induction docs with
  | nil => rfl
  | cons d ds ih =>
    rw [List.map_cons, List.filter_cons, List.filter_cons, selects_idEq v hv d]
    by_cases h : (Filter.idEq v).sel (Bson.unmarshal d) = true
    · simp [h, ih]
    · simp [h, ih]

/-- For a non-empty id, createBook over stored documents and createBook over
the decoded records agree: same error, and the documents left decode to the
records left. -/
theorem bson_createBook_view (f : Faults) (coll : Bson.Collection) (bookReq : BookRequest)
    (hid : bookReq.ID ≠ "") :
    ((Bson.createBook f coll bookReq).1, (Bson.createBook f coll bookReq).2.view) =
      Bookstore.createBook f coll.view bookReq := by
  unfold Bson.createBook Bookstore.createBook Bson.Collection.Find Bookstore.Collection.Find
    Bson.Collection.CursorAll Bookstore.Collection.CursorAll
  cases hf : f.find with
  | some e => simp [Bson.Collection.view, Bookstore.Collection.logged]
  | none =>
    cases ha : f.cursorAll with
    | some e => simp [Bson.Collection.view, Bookstore.Collection.logged]
    | none =>
      simp only [filter_selects_map bookReq.ID hid, Bson.Collection.view,
        Bookstore.Collection.logged]
      split
      · simp
      · cases hi : f.insertOne with
        | some e =>
          simp [Bson.Collection.InsertOne, Bookstore.Collection.InsertOne, hi,
            Bookstore.Collection.logged]
        | none =>
          simp [Bson.Collection.InsertOne, Bookstore.Collection.InsertOne, hi,
            unmarshal_marshal]

/-- What createBook over stored documents does for a non-empty id without
faults, in closed form. -/
theorem bson_createBook_noFaults (coll : Bson.Collection) (bookReq : BookRequest)
    (hid : bookReq.ID ≠ "") :
    Bson.createBook noFaults coll bookReq =
      if 0 < countId bookReq.ID (coll.docs.map Bson.unmarshal) then
        (some (existsMsg bookReq.ID), { coll with log := coll.log ++ [.find, .cursorAll] })
      else
        (none, { docs := coll.docs ++ [Bson.marshal coll.nextOid (newBook bookReq)],
                 nextOid := coll.nextOid + 1,
                 log := coll.log ++ [.find, .cursorAll, .insertOne] }) := by
  simp only [Bson.createBook, Bson.Collection.Find, Bson.Collection.CursorAll, noFaults,
    filter_selects_map bookReq.ID hid, length_filter_idEq, gt_iff_lt]
  split
  · simp
  · simp [Bson.Collection.InsertOne]

/-- C1 as stated fails at the empty id. A record created with id `""` is
stored without an `id` member, so the existence query of a second createBook
with id `""` selects nothing: on a collection holding such a record, which
decodes to the request's id, the call returns no error and inserts a second
record; run twice from the empty collection both calls succeed. -/
theorem createBook_empty_id_no_conflict :
    (∃ d ∈ ([⟨1, none, "T", "A", "", "", ""⟩] : List Bson.Document),
      (Bson.unmarshal d).ID = (⟨"", "T", "A", "", "", ""⟩ : BookRequest).ID) ∧
    Bson.createBook noFaults { docs := [⟨1, none, "T", "A", "", "", ""⟩], nextOid := 2, log := [] }
        ⟨"", "T", "A", "", "", ""⟩ =
      (none, { docs := [⟨1, none, "T", "A", "", "", ""⟩, ⟨2, none, "T", "A", "", "", ""⟩],
               nextOid := 3,
               log := [.find, .cursorAll, .insertOne] }) ∧
    (Bson.createBook noFaults { docs := [], nextOid := 1, log := [] }
        ⟨"", "T", "A", "", "", ""⟩).1 = none ∧
    (Bson.createBook noFaults
        (Bson.createBook noFaults { docs := [], nextOid := 1, log := [] }
          ⟨"", "T", "A", "", "", ""⟩).2 ⟨"", "T", "A", "", "", ""⟩).1 = none ∧
    (Bson.createBook noFaults
        (Bson.createBook noFaults { docs := [], nextOid := 1, log := [] }
          ⟨"", "T", "A", "", "", ""⟩).2 ⟨"", "T", "A", "", "", ""⟩).2.view.docs =
      [⟨1, "", "T", "A", "", "", ""⟩, ⟨2, "", "T", "A", "", "", ""⟩] := by
  refine ⟨?_, ?_, ?_, ?_, ?_⟩ <;> decide

/-- C1, amended. createBook over the stored documents, for every collection
and every request with a non-empty id, without storage faults: if some stored
record has the request's id the call fails with the conflict error and the
documents are unchanged; otherwise it succeeds and the documents are the old
ones followed by exactly one new document whose id, title, author, edition,
pages and year are the request's; a member absent from the JSON body is stored
as the empty string.  On such a request the decoded view used by the handlers
agrees with it. -/
theorem createBook_spec (coll : Bson.Collection) (bookReq : BookRequest)
    (hid : bookReq.ID ≠ "") :
    ((∃ d ∈ coll.docs, (Bson.unmarshal d).ID = bookReq.ID) →
      (Bson.createBook noFaults coll bookReq).1 = some (existsMsg bookReq.ID) ∧
      (Bson.createBook noFaults coll bookReq).2.docs = coll.docs) ∧
    ((¬ ∃ d ∈ coll.docs, (Bson.unmarshal d).ID = bookReq.ID) →
      (Bson.createBook noFaults coll bookReq).1 = none ∧
      ∃ d : Bson.Document,
        (Bson.createBook noFaults coll bookReq).2.docs = coll.docs ++ [d] ∧
        d.id = some bookReq.ID ∧ d.bookname = bookReq.Title ∧
        d.bookauthor = bookReq.Author ∧ d.bookedition = bookReq.Edition ∧
        d.bookpages = bookReq.Pages ∧ d.bookyear = bookReq.Year ∧
        (∀ p : BookPayload, bookReq = bind p →
          (p.edition = none → d.bookedition = "") ∧ (p.pages = none → d.bookpages = "") ∧
          (p.year = none → d.bookyear = ""))) ∧
    ((Bson.createBook noFaults coll bookReq).1,
        (Bson.createBook noFaults coll bookReq).2.view) =
      createBook noFaults coll.view bookReq := by
  have hiff : 0 < countId bookReq.ID (coll.docs.map Bson.unmarshal) ↔
      ∃ d ∈ coll.docs, (Bson.unmarshal d).ID = bookReq.ID := by
    rw [countId_pos_iff]
    constructor
    · rintro ⟨b, hb, hbe⟩
      obtain ⟨d, hd, rfl⟩ := List.mem_map.1 hb
      exact ⟨d, hd, hbe⟩
    · rintro ⟨d, hd, hde⟩
      exact ⟨_, List.mem_map_of_mem _ hd, hde⟩
  refine ⟨?_, ?_, bson_createBook_view noFaults coll bookReq hid⟩
  · intro h
    rw [bson_createBook_noFaults coll bookReq hid, if_pos (hiff.2 h)]
    exact ⟨rfl, rfl⟩
  · intro h
    rw [bson_createBook_noFaults coll bookReq hid, if_neg (fun hc => h (hiff.1 hc))]
    refine ⟨rfl, _, rfl, ?_, rfl, rfl, rfl, rfl, rfl, ?_⟩
    · simp [Bson.marshal, newBook, hid]
    · intro p hp
      subst hp
      refine ⟨?_, ?_, ?_⟩ <;> intro hn <;> simp [Bson.marshal, newBook, bind, hn]

theorem createBook_spec_witness :
    (Bson.createBook noFaults
        { docs := [⟨7, some "b1", "T0", "A0", "E0", "P0", "Y0"⟩], nextOid := 8, log := [] }
        ⟨"b1", "T", "A", "", "", ""⟩).1 = some "book with ID b1 already exists" ∧
    (Bson.createBook noFaults
        { docs := [⟨7, some "b1", "T0", "A0", "E0", "P0", "Y0"⟩], nextOid := 8, log := [] }
        (bind ⟨some "b2", some "T", some "A", none, none, none⟩)).2.docs =
      [⟨7, some "b1", "T0", "A0", "E0", "P0", "Y0"⟩, ⟨8, some "b2", "T", "A", "", "", ""⟩] :=
  ⟨((createBook_spec
      { docs := [⟨7, some "b1", "T0", "A0", "E0", "P0", "Y0"⟩], nextOid := 8, log := [] }
      ⟨"b1", "T", "A", "", "", ""⟩ (by decide)).1
      ⟨⟨7, some "b1", "T0", "A0", "E0", "P0", "Y0"⟩, by simp, rfl⟩).1,
   by decide⟩

/-! ## Uniqueness is preserved by every operation -/

theorem count_map_ID (id : String) (docs : List BookStore) :
    (docs.map BookStore.ID).count id = countId id docs := by
  induction docs with
  | nil => rfl
  | cons b bs ih =>
    unfold countId at *
    by_cases h : b.ID = id
    · simp [List.filter_cons, h, ih]
    · rw [List.map_cons, List.count_cons_of_ne (fun hc => h hc.symm), ih]
      simp [List.filter_cons, h]

theorem uniqueIds_iff_countId (docs : List BookStore) :
    UniqueIds docs ↔ ∀ id, countId id docs ≤ 1 := by
  unfold UniqueIds
  rw [List.nodup_iff_count_le_one]
  refine forall_congr' (fun id => ?_)
  rw [count_map_ID]

theorem assignOid_ID (oid : ObjectID) (doc : BookStore) : (assignOid oid doc).ID = doc.ID := by
  unfold assignOid; split <;> rfl

theorem updateFirst_map_ID (p : BookStore → Bool) (g : BookStore → BookStore)
    (hg : ∀ b, (g b).ID = b.ID) (l : List BookStore) :
    ((updateFirst p g l).2).map BookStore.ID = l.map BookStore.ID := by
  induction l with
  | nil => rfl
  | cons b bs ih =>
    unfold updateFirst
    split
    · simp [hg]
    · simp [ih]

theorem deleteFirst_sublist (p : BookStore → Bool) (l : List BookStore) :
    List.Sublist (deleteFirst p l).2 l := by
  induction l with
  | nil => exact List.Sublist.slnil
  | cons b bs ih =>
    unfold deleteFirst
    split
    · exact List.sublist_cons_self b bs
    · exact ih.cons₂ b

theorem setFields_ID (bookReq : BookRequest) (b : BookStore) :
    (setFields bookReq b).ID = b.ID := rfl

theorem uniqueIds_append_new (docs : List BookStore) (b : BookStore)
    (h : UniqueIds docs) (hb : countId b.ID docs = 0) : UniqueIds (docs ++ [b]) := by
  unfold UniqueIds at *
  rw [List.map_append, List.nodup_append]
  refine ⟨h, List.nodup_singleton _, ?_⟩
  intro x hx hx2
  simp only [List.map_cons, List.map_nil, List.mem_singleton] at hx2
  subst hx2
  obtain ⟨c, hc, hce⟩ := List.mem_map.1 hx
  have : 0 < countId b.ID docs := (countId_pos_iff _ _).2 ⟨c, hc, hce⟩
  omega

theorem createBook_unique (coll : Collection) (bookReq : BookRequest)
    (h : UniqueIds coll.docs) : UniqueIds (createBook noFaults coll bookReq).2.docs := by
  rw [createBook_noFaults]
  split
  · exact h
  · exact uniqueIds_append_new _ _ h (by simp only [newBook]; omega)

theorem updateBook_docs (coll : Collection) (id : String) (bookReq : BookRequest) :
    (updateBook noFaults coll id bookReq).2.docs =
      (updateFirst (Filter.idEq id).sel (setFields bookReq) coll.docs).2 := by
  simp only [updateBook, Collection.UpdateOne, noFaults]
  split <;> rfl

theorem updateBook_unique (coll : Collection) (id : String) (bookReq : BookRequest)
    (h : UniqueIds coll.docs) : UniqueIds (updateBook noFaults coll id bookReq).2.docs := by
  rw [updateBook_docs]
  unfold UniqueIds
  rw [updateFirst_map_ID _ _ (setFields_ID bookReq)]
  exact h

theorem deleteBook_docs (coll : Collection) (id : String) :
    (deleteBook noFaults coll id).2.docs = (deleteFirst (Filter.idEq id).sel coll.docs).2 := by
  simp only [deleteBook, Collection.DeleteOne, noFaults]
  split <;> rfl

theorem deleteBook_unique (coll : Collection) (id : String)
    (h : UniqueIds coll.docs) : UniqueIds (deleteBook noFaults coll id).2.docs := by
  rw [deleteBook_docs]
  exact List.Nodup.sublist ((deleteFirst_sublist _ _).map _) h

/-- One iteration of the seed loop without faults, in closed form. -/
theorem seedBook_noFaults (coll : Collection) (book : BookStore) :
    seedBook noFaults coll book =
      if 1 < countId book.ID coll.docs then
        (.fatal "more records were found", (coll.logged .find).logged .cursorAll)
      else if countId book.ID coll.docs = 0 then
        (.completed, { docs := coll.docs ++ [assignOid coll.nextOid book],
                       nextOid := coll.nextOid + 1,
                       log := coll.log ++ [.find, .cursorAll, .insertOne] })
      else (.completed, (coll.logged .find).logged .cursorAll) := by
  simp only [seedBook, find_noFaults, cursorAll_noFaults, Collection.logged,
    length_filter_idEq, gt_iff_lt, beq_iff_eq]
  split
  · rfl
  · split
    · simp [Collection.InsertOne, noFaults]
    · rfl

theorem seedBook_unique (coll : Collection) (book : BookStore)
    (h : UniqueIds coll.docs) : UniqueIds (seedBook noFaults coll book).2.docs := by
  rw [seedBook_noFaults]
  split
  · exact h
  · split
    · rename_i h0
      exact uniqueIds_append_new _ _ h (by rw [assignOid_ID]; exact h0)
    · exact h

theorem seedLoop_unique (data : List BookStore) (i : Nat) (coll : Collection)
    (h : UniqueIds coll.docs) :
    UniqueIds (seedLoop (fun _ => noFaults) i data coll).2.docs := by
  induction data generalizing i coll with
  | nil => exact h
  | cons book rest ih =>
    have hs := seedBook_unique coll book h
    unfold seedLoop
    split
    · rename_i c heq
      rw [heq] at hs
      exact ih _ _ hs
    · rename_i msg c heq
      rw [heq] at hs; exact hs
    · rename_i msg c heq
      rw [heq] at hs; exact hs

theorem postHandler_unique (coll : Collection) (body : Option BookPayload)
    (h : UniqueIds coll.docs) : UniqueIds (postHandler noFaults coll body).2.docs := by
  unfold postHandler
  cases body with
  | none => exact h
  | some p =>
    simp only
    split
    · exact h
    · have hc := createBook_unique coll (bind p) h
      split <;> rename_i heq <;> rw [heq] at hc <;> exact hc

theorem putHandler_unique (coll : Collection) (id : String) (body : Option BookPayload)
    (h : UniqueIds coll.docs) : UniqueIds (putHandler noFaults coll id body).2.docs := by
  unfold putHandler
  cases body with
  | none => exact h
  | some p =>
    simp only
    split
    · exact h
    · have hc := updateBook_unique coll id (bind p) h
      split
      · rename_i heq; rw [heq] at hc; split <;> exact hc
      · rename_i heq; rw [heq] at hc; exact hc

theorem deleteHandler_unique (coll : Collection) (id : String)
    (h : UniqueIds coll.docs) : UniqueIds (deleteHandler noFaults coll id).2.docs := by
  unfold deleteHandler
  have hc := deleteBook_unique coll id h
  split
  · rename_i heq; rw [heq] at hc; split <;> exact hc
  · rename_i heq; rw [heq] at hc; exact hc

theorem run_unique (coll : Collection) (op : Op) (h : UniqueIds coll.docs) :
    UniqueIds (op.run coll).docs := by
  cases op with
  | create body => exact postHandler_unique coll body h
  | update id body => exact putHandler_unique coll id body h
  | delete id => exact deleteHandler_unique coll id h
  | seed => exact seedLoop_unique _ _ coll h

/-- C2. Uniqueness under sequential execution: if a collection has at most one
record per id, then after any finite sequence of Create, Update, Delete and
Seed operations run one at a time without storage faults it still has at most
one record per id. -/
theorem runOps_unique (coll : Collection) (ops : List Op) (h : UniqueIds coll.docs) :
    UniqueIds (runOps coll ops).docs := by
  unfold runOps
  induction ops generalizing coll with
  | nil => exact h
  | cons op rest ih => exact ih _ (run_unique coll op h)

theorem runOps_unique_witness :
    UniqueIds ({ docs := [], nextOid := 1, log := [] } : Collection).docs ∧
    UniqueIds (runOps { docs := [], nextOid := 1, log := [] }
      [.seed, .create (some ⟨some "b1", some "T", some "A", none, none, none⟩),
       .create (some ⟨some "b1", some "T", some "A", none, none, none⟩),
       .update "b1" (some ⟨none, some "T2", some "A2", none, none, none⟩),
       .delete "example2", .seed]).docs :=
  ⟨by decide, runOps_unique _ _ (by decide)⟩

/-! ## Interleaved Create calls -/

/-- Run without interruption, the two steps of a Create call are the POST
handler: the interleaving model splits the handler and adds nothing to it. -/
theorem step_step_eq_postHandler (f : Faults) (coll : Collection) (body : Option BookPayload) :
    (((CreateCall.received body).step f coll).1.step f
        ((CreateCall.received body).step f coll).2) =
      (.answered (postHandler f coll body).1, (postHandler f coll body).2) := by
  cases body with
  | none => rfl
  | some p =>
    by_cases hv : ((bind p).ID == "" || (bind p).Title == "" || (bind p).Author == "") = true
    · simp [CreateCall.step, postHandler, hv]
    · cases hf : f.find with
      | some e => simp [CreateCall.step, postHandler, createBook, Collection.Find, hv, hf]
      | none =>
        cases ha : f.cursorAll with
        | some e =>
          simp [CreateCall.step, postHandler, createBook, Collection.Find,
            Collection.CursorAll, hv, hf, ha]
        | none =>
          by_cases hl : 0 < (coll.docs.filter (Filter.idEq (bind p).ID).sel).length
          · simp [CreateCall.step, postHandler, createBook, Collection.Find,
              Collection.CursorAll, hv, hf, ha, hl]
          · cases hi : f.insertOne <;>
              simp [CreateCall.step, postHandler, createBook, Collection.Find,
                Collection.CursorAll, Collection.InsertOne, Collection.logged, hv, hf, ha, hl, hi]

/-- C3 fails on the code. Two Create calls with the same id `b1` against an
empty collection, scheduled query, query, insert, insert: both are answered
201 and the collection ends with two records carrying `b1`. -/
theorem concurrent_create_both_succeed :
    (runSchedule noFaults [0, 1, 0, 1]
        ({ docs := [], nextOid := 1, log := [] },
         [.received (some ⟨some "b1", some "T", some "A", none, none, none⟩),
          .received (some ⟨some "b1", some "T", some "A", none, none, none⟩)])).2.map
      CreateCall.status = [some StatusCreated, some StatusCreated] ∧
    countId "b1" (runSchedule noFaults [0, 1, 0, 1]
        ({ docs := [], nextOid := 1, log := [] },
         [.received (some ⟨some "b1", some "T", some "A", none, none, none⟩),
          .received (some ⟨some "b1", some "T", some "A", none, none, none⟩)])).1.docs = 2 ∧
    (runSchedule noFaults [0, 0, 1, 1]
        ({ docs := [], nextOid := 1, log := [] },
         [.received (some ⟨some "b1", some "T", some "A", none, none, none⟩),
          .received (some ⟨some "b1", some "T", some "A", none, none, none⟩)])).2.map
      CreateCall.status = [some StatusCreated, some StatusConflict] := by
  refine ⟨?_, ?_, ?_⟩ <;> decide

/-! ## Update and Delete act on the first record carrying the id -/

theorem updateFirst_none (p : BookStore → Bool) (g : BookStore → BookStore)
    (l : List BookStore) (h : ∀ x ∈ l, p x = false) : updateFirst p g l = (0, l) := by
  induction l with
  | nil => rfl
  | cons b bs ih =>
    have hb : p b = false := h b (List.mem_cons_self _ _)
    have ih2 := ih (fun x hx => h x (List.mem_cons_of_mem _ hx))
    simp [updateFirst, hb, ih2]

theorem updateFirst_some (p : BookStore → Bool) (g : BookStore → BookStore)
    (l : List BookStore) (h : ∃ x ∈ l, p x = true) :
    ∃ l₁ b l₂, l = l₁ ++ b :: l₂ ∧ p b = true ∧ (∀ x ∈ l₁, p x = false) ∧
      updateFirst p g l = (1, l₁ ++ g b :: l₂) := by
  induction l with
  | nil => simp at h
  | cons b bs ih =>
    by_cases hb : p b = true
    · exact ⟨[], b, bs, rfl, hb, by simp, by simp [updateFirst, hb]⟩
    · have hbs : ∃ x ∈ bs, p x = true := by
        obtain ⟨x, hx, hpx⟩ := h
        rcases List.mem_cons.1 hx with rfl | hx2
        · exact absurd hpx hb
        · exact ⟨x, hx2, hpx⟩
      obtain ⟨l₁, c, l₂, hl, hc, hfirst, hu⟩ := ih hbs
      refine ⟨b :: l₁, c, l₂, by simp [hl], hc, ?_, ?_⟩
      · intro x hx
        rcases List.mem_cons.1 hx with rfl | hx2
        · simpa using hb
        · exact hfirst x hx2
      · simp [updateFirst, hb, hu]

theorem deleteFirst_none (p : BookStore → Bool) (l : List BookStore)
    (h : ∀ x ∈ l, p x = false) : deleteFirst p l = (0, l) := by
  induction l with
  | nil => rfl
  | cons b bs ih =>
    have hb : p b = false := h b (List.mem_cons_self _ _)
    have ih2 := ih (fun x hx => h x (List.mem_cons_of_mem _ hx))
    simp [deleteFirst, hb, ih2]

theorem deleteFirst_unique (id : String) (l : List BookStore) (hu : UniqueIds l)
    (h : ∃ x ∈ l, x.ID = id) :
    deleteFirst (Filter.idEq id).sel l = (1, l.filter (fun x => x.ID != id)) := by
  induction l with
  | nil => simp at h
  | cons b bs ih =>
    have hnd : b.ID ∉ bs.map BookStore.ID ∧ UniqueIds bs := by
      unfold UniqueIds at hu ⊢
      simpa using hu
    by_cases hb : b.ID = id
    · have hrest : bs.filter (fun x => x.ID != id) = bs := by
        rw [List.filter_eq_self]
        intro x hx
        have : x.ID ≠ id := fun hc => hnd.1 (List.mem_map.2 ⟨x, hx, hc.trans hb.symm⟩)
        simpa using this
      simp [deleteFirst, Filter.sel, hb, hrest]
    · have hbs : ∃ x ∈ bs, x.ID = id := by
        obtain ⟨x, hx, hpx⟩ := h
        rcases List.mem_cons.1 hx with rfl | hx2
        · exact absurd hpx hb
        · exact ⟨x, hx2, hpx⟩
      have ih2 := ih hnd.2 hbs
      simp [deleteFirst, Filter.sel, hb, ih2]

theorem sel_idEq_false_iff (id : String) (x : BookStore) :
    (Filter.idEq id).sel x = false ↔ x.ID ≠ id := by
  simp [Filter.sel]

theorem sel_idEq_true_iff (id : String) (x : BookStore) :
    (Filter.idEq id).sel x = true ↔ x.ID = id := by
  simp [Filter.sel]

/-- What updateBook does without faults, in closed form. -/
theorem updateBook_noFaults (coll : Collection) (id : String) (bookReq : BookRequest) :
    updateBook noFaults coll id bookReq =
      (if (updateFirst (Filter.idEq id).sel (setFields bookReq) coll.docs).1 = 0
        then some (notFoundMsg id) else none,
       { coll with docs := (updateFirst (Filter.idEq id).sel (setFields bookReq) coll.docs).2,
                   log := coll.log ++ [.updateOne] }) := by
  simp only [updateBook, Collection.UpdateOne, noFaults, beq_iff_eq]
  split <;> rfl

/-- What the PUT handler answers for a valid body without faults. -/
theorem putHandler_noFaults (coll : Collection) (id : String) (p : BookPayload)
    (hT : (bind p).Title ≠ "") (hA : (bind p).Author ≠ "") :
    putHandler noFaults coll id (some p) =
      (if (updateFirst (Filter.idEq id).sel (setFields (bind p)) coll.docs).1 = 0
        then ⟨StatusNotFound, "error", notFoundMsg id⟩
        else ⟨StatusOK, "message", "Book updated successfully"⟩,
       { coll with docs := (updateFirst (Filter.idEq id).sel (setFields (bind p)) coll.docs).2,
                   log := coll.log ++ [.updateOne] }) := by
  have hv : ¬ ((bind p).Title == "" || (bind p).Author == "") = true := by simp [hT, hA]
  simp only [putHandler, updateBook_noFaults, if_neg hv]
  by_cases h0 : (updateFirst (Filter.idEq id).sel (setFields (bind p)) coll.docs).1 = 0
  · simp [h0]
  · simp [h0]

/-- C4. Update with non-empty title and author, without storage faults: if some
stored record has the path id, updateBook succeeds, the handler answers 200,
the first such record gets the body's title, author, edition, pages and year
(an absent member becomes the empty string), keeps its id and storage identity
whatever id the body carries, and every other record is unchanged; if no
record has the id, updateBook fails with the not-found error, the handler
answers 404 and the records are unchanged. -/
theorem putHandler_spec (coll : Collection) (id : String) (p : BookPayload)
    (hT : (bind p).Title ≠ "") (hA : (bind p).Author ≠ "") :
    ((∃ x ∈ coll.docs, x.ID = id) →
      (updateBook noFaults coll id (bind p)).1 = none ∧
      (putHandler noFaults coll id (some p)).1.status = StatusOK ∧
      ∃ l₁ b l₂, coll.docs = l₁ ++ b :: l₂ ∧ b.ID = id ∧ (∀ x ∈ l₁, x.ID ≠ id) ∧
        (putHandler noFaults coll id (some p)).2.docs = l₁ ++
          { MongoID := b.MongoID, ID := b.ID, BookName := p.title.getD "",
            BookAuthor := p.author.getD "", BookEdition := p.edition.getD "",
            BookPages := p.pages.getD "", BookYear := p.year.getD "" } :: l₂) ∧
    ((¬ ∃ x ∈ coll.docs, x.ID = id) →
      (updateBook noFaults coll id (bind p)).1 = some (notFoundMsg id) ∧
      (putHandler noFaults coll id (some p)).1.status = StatusNotFound ∧
      (putHandler noFaults coll id (some p)).2.docs = coll.docs) := by
  rw [putHandler_noFaults coll id p hT hA, updateBook_noFaults]
  constructor
  · intro h
    obtain ⟨l₁, b, l₂, hl, hb, hfirst, hu⟩ :=
      updateFirst_some (Filter.idEq id).sel (setFields (bind p)) coll.docs
        (by obtain ⟨x, hx, hxe⟩ := h; exact ⟨x, hx, (sel_idEq_true_iff id x).2 hxe⟩)
    rw [hu]
    refine ⟨by simp, by simp, l₁, b, l₂, hl, (sel_idEq_true_iff id b).1 hb,
      fun x hx => (sel_idEq_false_iff id x).1 (hfirst x hx), rfl⟩
  · intro h
    have hn : ∀ x ∈ coll.docs, (Filter.idEq id).sel x = false :=
      fun x hx => (sel_idEq_false_iff id x).2 (fun hc => h ⟨x, hx, hc⟩)
    rw [updateFirst_none _ _ _ hn]
    exact ⟨by simp, by simp, rfl⟩

theorem putHandler_spec_witness :
    ((putHandler noFaults
        { docs := [⟨7, "a", "T0", "A0", "E0", "P0", "Y0"⟩, ⟨8, "b1", "T", "A", "E", "P", "Y"⟩],
          nextOid := 9, log := [] } "b1"
        (some ⟨some "zz", some "T2", some "A2", none, none, none⟩)).1.status = StatusOK ∧
      (putHandler noFaults
        { docs := [⟨7, "a", "T0", "A0", "E0", "P0", "Y0"⟩, ⟨8, "b1", "T", "A", "E", "P", "Y"⟩],
          nextOid := 9, log := [] } "b1"
        (some ⟨some "zz", some "T2", some "A2", none, none, none⟩)).2.docs =
        [⟨7, "a", "T0", "A0", "E0", "P0", "Y0"⟩, ⟨8, "b1", "T2", "A2", "", "", ""⟩]) ∧
    (putHandler noFaults { docs := [], nextOid := 1, log := [] } "b1"
        (some ⟨none, some "T2", some "A2", none, none, none⟩)).1.status = StatusNotFound :=
  ⟨by decide,
   ((putHandler_spec { docs := [], nextOid := 1, log := [] } "b1"
      ⟨none, some "T2", some "A2", none, none, none⟩ (by decide) (by decide)).2
      (by simp)).2.1⟩

/-- What deleteBook does without faults, in closed form. -/
theorem deleteBook_noFaults (coll : Collection) (id : String) :
    deleteBook noFaults coll id =
      (if (deleteFirst (Filter.idEq id).sel coll.docs).1 = 0
        then some (notFoundMsg id) else none,
       { coll with docs := (deleteFirst (Filter.idEq id).sel coll.docs).2,
                   log := coll.log ++ [.deleteOne] }) := by
  simp only [deleteBook, Collection.DeleteOne, noFaults, beq_iff_eq]
  split <;> rfl

/-- What the DELETE handler answers without faults. -/
theorem deleteHandler_noFaults (coll : Collection) (id : String) :
    deleteHandler noFaults coll id =
      (if (deleteFirst (Filter.idEq id).sel coll.docs).1 = 0
        then ⟨StatusNotFound, "error", notFoundMsg id⟩
        else ⟨StatusOK, "message", "Book deleted successfully"⟩,
       { coll with docs := (deleteFirst (Filter.idEq id).sel coll.docs).2,
                   log := coll.log ++ [.deleteOne] }) := by
  simp only [deleteHandler, deleteBook_noFaults]
  by_cases h0 : (deleteFirst (Filter.idEq id).sel coll.docs).1 = 0
  · simp [h0]
  · simp [h0]

/-- C5. Delete on a collection with at most one record per id, without storage
faults: if a record with the id is stored, deleteBook succeeds, the handler
answers 200, no record with that id remains and the other records are kept as
they were; if none is stored, deleteBook fails with the not-found error, the
handler answers 404 and the records are unchanged. -/
theorem deleteHandler_spec (coll : Collection) (id : String) (hu : UniqueIds coll.docs) :
    ((∃ x ∈ coll.docs, x.ID = id) →
      (deleteBook noFaults coll id).1 = none ∧
      (deleteHandler noFaults coll id).1.status = StatusOK ∧
      (∀ x ∈ (deleteHandler noFaults coll id).2.docs, x.ID ≠ id) ∧
      (deleteHandler noFaults coll id).2.docs = coll.docs.filter (fun x => x.ID != id)) ∧
    ((¬ ∃ x ∈ coll.docs, x.ID = id) →
      (deleteBook noFaults coll id).1 = some (notFoundMsg id) ∧
      (deleteHandler noFaults coll id).1.status = StatusNotFound ∧
      (deleteHandler noFaults coll id).2.docs = coll.docs) := by
  rw [deleteHandler_noFaults, deleteBook_noFaults]
  constructor
  · intro h
    rw [deleteFirst_unique id coll.docs hu h]
    refine ⟨by simp, by simp, ?_, rfl⟩
    intro x hx
    have := (List.mem_filter.1 hx).2
    simpa using this
  · intro h
    have hn : ∀ x ∈ coll.docs, (Filter.idEq id).sel x = false :=
      fun x hx => (sel_idEq_false_iff id x).2 (fun hc => h ⟨x, hx, hc⟩)
    rw [deleteFirst_none _ _ hn]
    exact ⟨by simp, by simp, rfl⟩

theorem deleteHandler_spec_witness :
    UniqueIds [⟨7, "a", "T0", "A0", "E0", "P0", "Y0"⟩, ⟨8, "b1", "T", "A", "E", "P", "Y"⟩,
      ⟨9, "c", "T1", "A1", "E1", "P1", "Y1"⟩] ∧
    (deleteHandler noFaults
        { docs := [⟨7, "a", "T0", "A0", "E0", "P0", "Y0"⟩, ⟨8, "b1", "T", "A", "E", "P", "Y"⟩,
            ⟨9, "c", "T1", "A1", "E1", "P1", "Y1"⟩],
          nextOid := 10, log := [] } "b1").1.status = StatusOK ∧
    (deleteHandler noFaults
        { docs := [⟨7, "a", "T0", "A0", "E0", "P0", "Y0"⟩, ⟨8, "b1", "T", "A", "E", "P", "Y"⟩,
            ⟨9, "c", "T1", "A1", "E1", "P1", "Y1"⟩],
          nextOid := 10, log := [] } "b1").2.docs =
      [⟨7, "a", "T0", "A0", "E0", "P0", "Y0"⟩, ⟨9, "c", "T1", "A1", "E1", "P1", "Y1"⟩] :=
  ⟨by decide,
   ((deleteHandler_spec
      { docs := [⟨7, "a", "T0", "A0", "E0", "P0", "Y0"⟩, ⟨8, "b1", "T", "A", "E", "P", "Y"⟩,
          ⟨9, "c", "T1", "A1", "E1", "P1", "Y1"⟩],
        nextOid := 10, log := [] } "b1" (by decide)).1
      ⟨⟨8, "b1", "T", "A", "E", "P", "Y"⟩, by simp, rfl⟩).2.1,
   by decide⟩

/-! ## Validation -/

/-- C6. Validation precedes storage: a Create body whose id, title or author is
empty or absent, and an Update body whose title or author is empty or absent,
is answered 400 whatever the storage would do, and the collection, its log of
driver calls included, is exactly as before: no driver call is made and in
particular nothing is inserted.  A body that cannot be bound is treated
alike. -/
theorem validation_precedes_storage (f : Faults) (coll : Collection) (id : String)
    (p : BookPayload) :
    (((bind p).ID = "" ∨ (bind p).Title = "" ∨ (bind p).Author = "") →
      (postHandler f coll (some p)).1.status = StatusBadRequest ∧
      (postHandler f coll (some p)).2 = coll) ∧
    (((bind p).Title = "" ∨ (bind p).Author = "") →
      (putHandler f coll id (some p)).1.status = StatusBadRequest ∧
      (putHandler f coll id (some p)).2 = coll) ∧
    ((postHandler f coll none).1.status = StatusBadRequest ∧ (postHandler f coll none).2 = coll) ∧
    ((putHandler f coll id none).1.status = StatusBadRequest ∧
      (putHandler f coll id none).2 = coll) := by
  refine ⟨?_, ?_, ⟨rfl, rfl⟩, ⟨rfl, rfl⟩⟩
  · intro h
    have hv : ((bind p).ID == "" || (bind p).Title == "" || (bind p).Author == "") = true := by
      rcases h with h | h | h <;> simp [h]
    simp only [postHandler, if_pos hv, and_self]
  · intro h
    have hv : ((bind p).Title == "" || (bind p).Author == "") = true := by
      rcases h with h | h <;> simp [h]
    simp only [putHandler, if_pos hv, and_self]

theorem validation_precedes_storage_witness :
    (postHandler { noFaults with find := some "unreachable" }
        { docs := [], nextOid := 1, log := [] }
        (some ⟨some "b1", some "", some "A", none, none, none⟩)).1.status = StatusBadRequest ∧
    (postHandler { noFaults with find := some "unreachable" }
        { docs := [], nextOid := 1, log := [] }
        (some ⟨some "b1", some "", some "A", none, none, none⟩)).2 =
      { docs := [], nextOid := 1, log := [] } :=
  (validation_precedes_storage { noFaults with find := some "unreachable" }
    { docs := [], nextOid := 1, log := [] } "b1"
    ⟨some "b1", some "", some "A", none, none, none⟩).1 (Or.inr (Or.inl rfl))

/-! ## Storage faults at the handlers -/

/-- The POST handler answers every error of createBook with 409: a failing
`Find`, `cursor.All` or `InsertOne` on a valid body gives 409. -/
theorem postHandler_fault_status (f : Faults) (coll : Collection) (p : BookPayload)
    (hI : (bind p).ID ≠ "") (hT : (bind p).Title ≠ "") (hA : (bind p).Author ≠ "")
    (e : String) (hf : f.find = some e ∨ f.cursorAll = some e ∨
      (f.insertOne = some e ∧ ¬ ∃ x ∈ coll.docs, x.ID = (bind p).ID)) :
    (postHandler f coll (some p)).1.status = StatusConflict := by
  have hv : ¬ ((bind p).ID == "" || (bind p).Title == "" || (bind p).Author == "") = true := by
    simp [hI, hT, hA]
  simp only [postHandler, if_neg hv]
  cases h1 : (createBook f coll (bind p)).1 with
  | some err =>
    have : createBook f coll (bind p) = (some err, (createBook f coll (bind p)).2) := by
      rw [← h1]
    rw [this]
  | none =>
    exfalso
    revert h1
    simp only [createBook, Collection.Find, Collection.CursorAll, Collection.InsertOne]
    cases h2 : f.find with
    | some e2 => simp
    | none =>
      cases h3 : f.cursorAll with
      | some e3 => simp
      | none =>
        rcases hf with hf | hf | ⟨hf, hne⟩
        · simp [h2] at hf
        · simp [h3] at hf
        · simp only [hf]
          split
          · simp
          · simp

/-- C7 fails on the code for Create. A valid Create whose `Find` fails is
answered 409, not 500, and so is one whose `InsertOne` fails; the PUT and
DELETE handlers answer the same kind of fault with 500. -/
theorem create_storage_fault_answered_409 :
    (postHandler { noFaults with find := some "server selection error" }
        { docs := [], nextOid := 1, log := [] }
        (some ⟨some "b1", some "T", some "A", none, none, none⟩)).1 =
      ⟨StatusConflict, "error", "server selection error"⟩ ∧
    (postHandler { noFaults with insertOne := some "write exception" }
        { docs := [], nextOid := 1, log := [] }
        (some ⟨some "b1", some "T", some "A", none, none, none⟩)).1 =
      ⟨StatusConflict, "error", "write exception"⟩ ∧
    (putHandler { noFaults with updateOne := some "server selection error" }
        { docs := [], nextOid := 1, log := [] } "b1"
        (some ⟨none, some "T", some "A", none, none, none⟩)).1.status =
      StatusInternalServerError ∧
    (deleteHandler { noFaults with deleteOne := some "server selection error" }
        { docs := [], nextOid := 1, log := [] } "b1").1.status = StatusInternalServerError := by
  refine ⟨?_, ?_, ?_, ?_⟩ <;> decide

/-! ## Read -/

theorem foldl_append_singleton {α β : Type} (g : α → β) (l : List α) (init : List β) :
    l.foldl (fun ret res => ret ++ [g res]) init = init ++ l.map g := by
  induction l generalizing init with
  | nil => simp
  | cons a as ih => simp [ih]

theorem foldl_slice_append {α β : Type} (g : α → β) (l : List α) (init : Slice β) :
    l.foldl (fun ret res => Slice.append ret (g res)) init =
      if l.isEmpty then init else some (init.getD [] ++ l.map g) := by
  induction l generalizing init with
  | nil => rfl
  | cons a as ih =>
    rw [List.foldl_cons, ih]
    cases as with
    | nil => simp [Slice.append]
    | cons b bs => simp [Slice.append]

/-- What getAllBooksAPI returns on a live handle without faults: the nil slice
for an empty collection, else one projection per record in storage order; the
records are not changed. -/
theorem getAllBooksAPI_noFaults (coll : Collection) :
    getAllBooksAPI noFaults (some coll) =
      (.returned (if coll.docs.isEmpty then none else some (coll.docs.map toResponse)),
       some ((coll.logged .find).logged .cursorAll)) := by
  have h0 : coll.docs.filter Filter.all.sel = coll.docs :=
    List.filter_eq_self.2 (fun _ _ => rfl)
  simp only [getAllBooksAPI, find_noFaults, cursorAll_noFaults, foldl_slice_append, h0]
  cases coll.docs <;> simp

/-- What the GET handler answers on a live handle without faults. -/
theorem getHandler_noFaults (coll : Collection) :
    getHandler noFaults (some coll) =
      (.returned (StatusOK,
          if coll.docs.isEmpty then .null else .array (coll.docs.map toResponse)),
       some ((coll.logged .find).logged .cursorAll)) := by
  simp only [getHandler, getAllBooksAPI_noFaults]
  cases coll.docs <;> simp [encodeJSON]

/-- On a live handle a failing `Find` or `cursor.All` is answered 200 with the
empty array, and the records are not changed. -/
theorem getHandler_fault (f : Faults) (coll : Collection)
    (hf : f.find ≠ none ∨ f.cursorAll ≠ none) :
    (getHandler f (some coll)).1 = .returned (StatusOK, .array []) ∧
    ∃ c, (getHandler f (some coll)).2 = some c ∧ c.docs = coll.docs := by
  simp only [getHandler, getAllBooksAPI, Collection.Find, Collection.CursorAll,
    Collection.logged]
  cases h1 : f.find with
  | some e => exact ⟨rfl, _, rfl, rfl⟩
  | none =>
    cases h2 : f.cursorAll with
    | some e => exact ⟨rfl, _, rfl, rfl⟩
    | none => simp [h1, h2] at hf

/-- C8 fails on the code. On an empty collection, with the store reachable and
no fault, getAllBooksAPI returns the nil slice and the handler answers 200
with the body `null`, not an array; when `Find` fails on the same collection
the body is the empty array `[]`; and on the nil handle left by a start
without connection the call panics and no 200 is answered. -/
theorem get_empty_collection_answers_null :
    (getAllBooksAPI noFaults (some { docs := [], nextOid := 1, log := [] })).1 =
      .returned none ∧
    (getHandler noFaults (some { docs := [], nextOid := 1, log := [] })).1 =
      .returned (StatusOK, .null) ∧
    (getHandler { noFaults with find := some "server selection error" }
        (some { docs := [], nextOid := 1, log := [] })).1 =
      .returned (StatusOK, .array []) ∧
    (getHandler { noFaults with cursorAll := some "decode error" }
        (some { docs := [⟨7, "a", "T0", "A0", "E0", "P0", "Y0"⟩], nextOid := 8, log := [] })).1 =
      .returned (StatusOK, .array []) ∧
    (getHandler noFaults
        (some { docs := [⟨7, "a", "T0", "A0", "E0", "P0", "Y0"⟩], nextOid := 8, log := [] })).1 =
      .returned (StatusOK, .array [⟨"a", "T0", "A0", "P0", "E0", "Y0"⟩]) ∧
    (getHandler noFaults none).1 = .panicked nilCollectionMsg := by
  refine ⟨?_, ?_, ?_, ?_, ?_, ?_⟩ <;> decide

/-! ## Seeding -/

theorem countId_append_singleton (id : String) (docs : List BookStore) (b : BookStore) :
    countId id (docs ++ [b]) = countId id docs + (if b.ID = id then 1 else 0) := by
  unfold countId
  by_cases h : b.ID = id <;> simp [List.filter_append, List.filter_cons, h]

/-- The loop without faults over records with distinct ids, each stored at most
once: it completes, and afterwards an id is stored once if it was missing and
is one of the records' ids, and as often as before otherwise. -/
theorem seedLoop_counts (data : List BookStore) (i : Nat) (coll : Collection)
    (hnd : (data.map BookStore.ID).Nodup)
    (hle : ∀ b ∈ data, countId b.ID coll.docs ≤ 1) :
    (seedLoop (fun _ => noFaults) i data coll).1 = .completed ∧
    ∀ id, countId id (seedLoop (fun _ => noFaults) i data coll).2.docs =
      if id ∈ data.map BookStore.ID ∧ countId id coll.docs = 0 then 1
      else countId id coll.docs := by
  induction data generalizing i coll with
  | nil => exact ⟨rfl, fun id => by simp [seedLoop]⟩
  | cons book rest ih =>
    have hnd2 : book.ID ∉ rest.map BookStore.ID ∧ (rest.map BookStore.ID).Nodup := by
      simpa using hnd
    have hbook : countId book.ID coll.docs ≤ 1 := hle book (List.mem_cons_self _ _)
    have hstep : ∃ c, seedBook noFaults coll book = (.completed, c) ∧
        ∀ id, countId id c.docs =
          if id = book.ID ∧ countId id coll.docs = 0 then 1 else countId id coll.docs := by
      rw [seedBook_noFaults, if_neg (by omega)]
      by_cases h0 : countId book.ID coll.docs = 0
      · rw [if_pos h0]
        refine ⟨_, rfl, fun id => ?_⟩
        simp only [countId_append_singleton, assignOid_ID]
        by_cases hid : book.ID = id
        · subst hid; simp [h0]
        · have hid2 : ¬ id = book.ID := fun hc => hid hc.symm
          simp [hid, hid2]
      · rw [if_neg h0]
        refine ⟨_, rfl, fun id => ?_⟩
        simp only [Collection.logged]
        by_cases hid : id = book.ID
        · subst hid; simp [h0]
        · simp [hid]
    obtain ⟨c, hc, hcount⟩ := hstep
    have hle2 : ∀ b ∈ rest, countId b.ID c.docs ≤ 1 := by
      intro b hb
      have hne : ¬ b.ID = book.ID := fun hc2 => hnd2.1 (hc2 ▸ List.mem_map_of_mem _ hb)
      rw [hcount, if_neg (fun hh => hne hh.1)]
      exact hle b (List.mem_cons_of_mem _ hb)
    obtain ⟨ih1, ih2⟩ := ih (i + 1) c hnd2.2 hle2
    have hloop : seedLoop (fun _ => noFaults) i (book :: rest) coll =
        seedLoop (fun _ => noFaults) (i + 1) rest c := by
      rw [seedLoop]
      simp only [hc]
    rw [hloop]
    refine ⟨ih1, fun id => ?_⟩
    rw [ih2 id, hcount id]
    by_cases hid : id = book.ID
    · subst hid
      by_cases h0 : countId book.ID coll.docs = 0
      · simp [h0]
      · simp [h0, hnd2.1]
    · simp [hid]

/-- The loop without faults when every record is already stored exactly once:
it completes, only queries, and leaves the records as they are. -/
theorem seedLoop_noop (data : List BookStore) (i : Nat) (coll : Collection)
    (hone : ∀ b ∈ data, countId b.ID coll.docs = 1) :
    seedLoop (fun _ => noFaults) i data coll =
      (.completed, { coll with log := coll.log ++
        (data.flatMap (fun _ => [DriverCall.find, DriverCall.cursorAll])) }) := by
  induction data generalizing i coll with
  | nil => simp [seedLoop]
  | cons book rest ih =>
    have h1 : countId book.ID coll.docs = 1 := hone book (List.mem_cons_self _ _)
    have hc : seedBook noFaults coll book =
        (.completed, (coll.logged .find).logged .cursorAll) := by
      rw [seedBook_noFaults, if_neg (by omega), if_neg (by omega)]
    rw [seedLoop]
    simp only [hc]
    rw [ih (i + 1) ((coll.logged .find).logged .cursorAll)
      (fun b hb => hone b (List.mem_cons_of_mem _ hb))]
    simp [Collection.logged]

/-- C9. Idempotent seeding, without storage faults.  On an empty collection
prepareData completes and inserts exactly the three canonical records
(example1, example2, example3), with three `InsertOne` calls; run again on the
result it completes with queries only and leaves the records unchanged.  For
every collection with at most one record per canonical id, one run completes
and leaves exactly one record per canonical id, and a second run only queries
and changes no record. -/
theorem prepareData_idempotent :
    (∀ (n : ObjectID) (log : List DriverCall),
      (prepareData (fun _ => noFaults) { docs := [], nextOid := n, log := log }).1 = .completed ∧
      (prepareData (fun _ => noFaults) { docs := [], nextOid := n, log := log }).2.docs.map
        BookStore.ID = ["example1", "example2", "example3"] ∧
      (prepareData (fun _ => noFaults) { docs := [], nextOid := n, log := log }).2.docs.map
        (fun b => { b with MongoID := 0 }) = startData ∧
      (prepareData (fun _ => noFaults) { docs := [], nextOid := n, log := log }).2.log =
        log ++ [.find, .cursorAll, .insertOne, .find, .cursorAll, .insertOne,
                .find, .cursorAll, .insertOne] ∧
      prepareData (fun _ => noFaults)
          (prepareData (fun _ => noFaults) { docs := [], nextOid := n, log := log }).2 =
        (.completed,
          { (prepareData (fun _ => noFaults) { docs := [], nextOid := n, log := log }).2 with
            log := (prepareData (fun _ => noFaults)
                { docs := [], nextOid := n, log := log }).2.log ++
              [.find, .cursorAll, .find, .cursorAll, .find, .cursorAll] })) ∧
    (∀ coll : Collection, (∀ id ∈ canonicalIds, countId id coll.docs ≤ 1) →
      (prepareData (fun _ => noFaults) coll).1 = .completed ∧
      (∀ id ∈ canonicalIds, countId id (prepareData (fun _ => noFaults) coll).2.docs = 1) ∧
      prepareData (fun _ => noFaults) (prepareData (fun _ => noFaults) coll).2 =
        (.completed,
          { (prepareData (fun _ => noFaults) coll).2 with
            log := (prepareData (fun _ => noFaults) coll).2.log ++
              [.find, .cursorAll, .find, .cursorAll, .find, .cursorAll] })) := by
  have hnd : (startData.map BookStore.ID).Nodup := by decide
  have hgen : ∀ coll : Collection, (∀ id ∈ canonicalIds, countId id coll.docs ≤ 1) →
      (prepareData (fun _ => noFaults) coll).1 = .completed ∧
      (∀ id ∈ canonicalIds, countId id (prepareData (fun _ => noFaults) coll).2.docs = 1) ∧
      prepareData (fun _ => noFaults) (prepareData (fun _ => noFaults) coll).2 =
        (.completed,
          { (prepareData (fun _ => noFaults) coll).2 with
            log := (prepareData (fun _ => noFaults) coll).2.log ++
              [.find, .cursorAll, .find, .cursorAll, .find, .cursorAll] }) := by
    intro coll hle
    have hle2 : ∀ b ∈ startData, countId b.ID coll.docs ≤ 1 :=
      fun b hb => hle b.ID (List.mem_map_of_mem _ hb)
    obtain ⟨h1, h2⟩ := seedLoop_counts startData 0 coll hnd hle2
    have hone : ∀ id ∈ canonicalIds,
        countId id (prepareData (fun _ => noFaults) coll).2.docs = 1 := by
      intro id hid
      have := h2 id
      unfold prepareData
      rw [this]
      have hle3 := hle id hid
      by_cases h0 : countId id coll.docs = 0
      · rw [if_pos ⟨hid, h0⟩]
      · rw [if_neg (fun hh => h0 hh.2)]; omega
    refine ⟨h1, hone, ?_⟩
    have := seedLoop_noop startData 0 (prepareData (fun _ => noFaults) coll).2
      (fun b hb => hone b.ID (List.mem_map_of_mem _ hb))
    exact this
  refine ⟨fun n log => ?_, hgen⟩
  have hg := hgen { docs := [], nextOid := n, log := log } (by intro id _; simp [countId])
  refine ⟨hg.1, ?_, ?_, ?_, hg.2.2⟩
  · simp [prepareData, seedLoop, startData, seedBook_noFaults, countId, assignOid]
  · simp [prepareData, seedLoop, startData, seedBook_noFaults, countId, assignOid]
  · simp [prepareData, seedLoop, startData, seedBook_noFaults, countId, assignOid,
      Collection.logged]

theorem prepareData_idempotent_witness :
    (∀ id ∈ canonicalIds, countId id
        [⟨5, "mine", "T", "A", "", "", ""⟩, ⟨6, "example2", "Kept", "As is", "", "", ""⟩] ≤ 1) ∧
    (prepareData (fun _ => noFaults)
        { docs := [⟨5, "mine", "T", "A", "", "", ""⟩,
            ⟨6, "example2", "Kept", "As is", "", "", ""⟩],
          nextOid := 7, log := [] }).1 = .completed ∧
    (∀ id ∈ canonicalIds, countId id (prepareData (fun _ => noFaults)
        { docs := [⟨5, "mine", "T", "A", "", "", ""⟩,
            ⟨6, "example2", "Kept", "As is", "", "", ""⟩],
          nextOid := 7, log := [] }).2.docs = 1) :=
  ⟨by decide,
   (prepareData_idempotent.2
      { docs := [⟨5, "mine", "T", "A", "", "", ""⟩,
          ⟨6, "example2", "Kept", "As is", "", "", ""⟩],
        nextOid := 7, log := [] } (by decide)).1,
   (prepareData_idempotent.2
      { docs := [⟨5, "mine", "T", "A", "", "", ""⟩,
          ⟨6, "example2", "Kept", "As is", "", "", ""⟩],
        nextOid := 7, log := [] } (by decide)).2.1⟩

/-! ## Aggregation in the web server -/

namespace WebServer

theorem rangeKeys_mapSet (m : StringSet) (k : String) (v : Bool) :
    rangeKeys (mapSet m k v) =
      if k ∈ rangeKeys m then rangeKeys m else rangeKeys m ++ [k] := by
  unfold mapSet rangeKeys
  have hany : (m.any (fun e => e.1 == k)) = true ↔ k ∈ m.map Prod.fst := by
    simp only [List.any_eq_true, List.mem_map, beq_iff_eq]
  by_cases h : k ∈ m.map Prod.fst
  · rw [if_pos (hany.2 h), if_pos h, List.map_map]
    apply List.map_congr_left
    intro e _
    by_cases hk : e.1 = k <;> simp [hk]
  · rw [if_neg (fun hc => h (hany.1 hc)), if_neg h]
    simp only [List.map_append, List.map_cons, List.map_nil]

/-- The keys of the map built by assigning `g book` for every book: distinct
when they were, and exactly the old keys and the values of `g`. -/
theorem rangeKeys_foldl {α : Type} (g : α → String) (books : List α) (init : StringSet)
    (hnd : (rangeKeys init).Nodup) :
    (rangeKeys (books.foldl (fun m book => mapSet m (g book) true) init)).Nodup ∧
    ∀ x, x ∈ rangeKeys (books.foldl (fun m book => mapSet m (g book) true) init) ↔
      x ∈ rangeKeys init ∨ ∃ b ∈ books, g b = x := by
  induction books generalizing init with
  | nil => exact ⟨hnd, fun x => by simp⟩
  | cons b bs ih =>
    have hnd2 : (rangeKeys (mapSet init (g b) true)).Nodup := by
      rw [rangeKeys_mapSet]
      split
      · exact hnd
      · rename_i hk
        rw [List.nodup_append]
        refine ⟨hnd, List.nodup_singleton _, ?_⟩
        intro x hx hx2
        simp only [List.mem_singleton] at hx2
        subst hx2
        exact hk hx
    obtain ⟨ih1, ih2⟩ := ih (mapSet init (g b) true) hnd2
    refine ⟨ih1, fun x => ?_⟩
    rw [List.foldl_cons, ih2 x, rangeKeys_mapSet]
    by_cases hk : g b ∈ rangeKeys init
    · rw [if_pos hk]
      constructor
      · rintro (h | ⟨c, hc, hx⟩)
        · exact Or.inl h
        · exact Or.inr ⟨c, List.mem_cons_of_mem _ hc, hx⟩
      · rintro (h | ⟨c, hc, hx⟩)
        · exact Or.inl h
        · rcases List.mem_cons.1 hc with rfl | hc2
          · exact Or.inl (hx ▸ hk)
          · exact Or.inr ⟨c, hc2, hx⟩
    · rw [if_neg hk, List.mem_append, List.mem_singleton]
      constructor
      · rintro ((h | h) | ⟨c, hc, hx⟩)
        · exact Or.inl h
        · exact Or.inr ⟨b, List.mem_cons_self _ _, h.symm⟩
        · exact Or.inr ⟨c, List.mem_cons_of_mem _ hc, hx⟩
      · rintro (h | ⟨c, hc, hx⟩)
        · exact Or.inl (Or.inl h)
        · rcases List.mem_cons.1 hc with rfl | hc2
          · exact Or.inl (Or.inr hx.symm)
          · exact Or.inr ⟨c, hc2, hx⟩

theorem rowValues_map_single (key : String) (keys : List String) :
    rowValues key (keys.map (fun a => [(key, a)])) = keys := by
  unfold rowValues
  induction keys with
  | nil => rfl
  | cons a as ih =>
    rw [List.map_cons, List.flatMap_cons, ih]
    simp

/-- What getAuthorsFromAPI returns for a fetched list, in closed form. -/
theorem getAuthorsFromAPI_ok (books : List BookResponse) :
    getAuthorsFromAPI (.ok books) =
      .ok ((rangeKeys (books.foldl (fun m book => mapSet m book.Author true) [])).map
        (fun a => [("Author", a)])) := by
  simp only [getAuthorsFromAPI, getBooksFromAPI, foldl_append_singleton, List.nil_append,
    List.foldl_map]

/-- What getYearsFromAPI returns for a fetched list, in closed form. -/
theorem getYearsFromAPI_ok (books : List BookResponse) :
    getYearsFromAPI (.ok books) =
      .ok ((rangeKeys (books.foldl (fun m book => mapSet m book.Year true) [])).map
        (fun a => [("Year", a)])) := by
  simp only [getYearsFromAPI, foldl_append_singleton, List.nil_append]

/-- The rows built from distinct keys carry, in any order, each value of `g`
over the books exactly once and nothing else. -/
theorem rows_spec {α : Type} (key : String) (g : α → String) (books : List α)
    (out : List Row)
    (hp : out.Perm ((rangeKeys (books.foldl (fun m book => mapSet m (g book) true) [])).map
      (fun a => [(key, a)]))) :
    (∀ row ∈ out, ∃ a, row = [(key, a)]) ∧ (rowValues key out).Nodup ∧
    ∀ a, a ∈ rowValues key out ↔ ∃ b ∈ books, g b = a := by
  obtain ⟨hnd, hmem⟩ := rangeKeys_foldl g books [] (by simp [rangeKeys])
  have hv : (rowValues key out).Perm
      (rangeKeys (books.foldl (fun m book => mapSet m (g book) true) [])) := by
    have := List.Perm.flatMap_right
      (fun row : Row => (row.filter (fun e => e.1 == key)).map Prod.snd) hp
    rw [← rowValues_map_single key
      (rangeKeys (books.foldl (fun m book => mapSet m (g book) true) []))]
    exact this
  refine ⟨?_, hv.nodup_iff.2 hnd, fun a => ?_⟩
  · intro row hrow
    obtain ⟨a, _, ha⟩ := List.mem_map.1 (hp.mem_iff.1 hrow)
    exact ⟨a, ha.symm⟩
  · rw [hv.mem_iff, hmem a]
    simp [rangeKeys]

end WebServer

/-- C10. Aggregation: for every record list fetched from the Read service both
functions succeed, and in whatever order the map is ranged over, the author
rows carry each author value occurring in the list exactly once and nothing
else, and the year rows each year value occurring in the list exactly once and
nothing else. -/
theorem aggregation_spec (books : List BookResponse) :
    ∃ authors years : List WebServer.Row,
      WebServer.getAuthorsFromAPI (.ok books) = .ok authors ∧
      WebServer.getYearsFromAPI (.ok books) = .ok years ∧
      (∀ out : List WebServer.Row, out.Perm authors →
        (∀ row ∈ out, ∃ a, row = [("Author", a)]) ∧
        (WebServer.rowValues "Author" out).Nodup ∧
        ∀ a, a ∈ WebServer.rowValues "Author" out ↔ ∃ b ∈ books, b.Author = a) ∧
      (∀ out : List WebServer.Row, out.Perm years →
        (∀ row ∈ out, ∃ y, row = [("Year", y)]) ∧
        (WebServer.rowValues "Year" out).Nodup ∧
        ∀ y, y ∈ WebServer.rowValues "Year" out ↔ ∃ b ∈ books, b.Year = y) :=
  ⟨_, _, WebServer.getAuthorsFromAPI_ok books, WebServer.getYearsFromAPI_ok books,
    fun out hp => WebServer.rows_spec "Author" BookResponse.Author books out hp,
    fun out hp => WebServer.rows_spec "Year" BookResponse.Year books out hp⟩

theorem aggregation_spec_witness :
    WebServer.getAuthorsFromAPI (.ok [⟨"1", "t1", "A", "", "", "1990"⟩,
        ⟨"2", "t2", "A", "", "", "1990"⟩, ⟨"3", "t3", "B", "", "", "2001"⟩]) =
      .ok [[("Author", "A")], [("Author", "B")]] ∧
    WebServer.getYearsFromAPI (.ok [⟨"1", "t1", "A", "", "", "1990"⟩,
        ⟨"2", "t2", "A", "", "", "1990"⟩, ⟨"3", "t3", "B", "", "", "2001"⟩]) =
      .ok [[("Year", "1990")], [("Year", "2001")]] ∧
    WebServer.getAuthorsFromAPI (.ok []) = .ok [] := by
  refine ⟨?_, ?_, ?_⟩ <;> rfl

/-! ## Round trip -/

theorem updateFirst_append_last (p : BookStore → Bool) (g : BookStore → BookStore)
    (l : List BookStore) (b : BookStore) (h : ∀ x ∈ l, p x = false) (hb : p b = true) :
    updateFirst p g (l ++ [b]) = (1, l ++ [g b]) := by
  induction l with
  | nil => simp [updateFirst, hb]
  | cons a as ih =>
    have ha : p a = false := h a (List.mem_cons_self _ _)
    have ih2 := ih (fun x hx => h x (List.mem_cons_of_mem _ hx))
    simp [updateFirst, ha, ih2]

theorem deleteFirst_append_last (p : BookStore → Bool) (l : List BookStore) (b : BookStore)
    (h : ∀ x ∈ l, p x = false) (hb : p b = true) :
    deleteFirst p (l ++ [b]) = (1, l) := by
  induction l with
  | nil => simp [deleteFirst, hb]
  | cons a as ih =>
    have ha : p a = false := h a (List.mem_cons_self _ _)
    have ih2 := ih (fun x hx => h x (List.mem_cons_of_mem _ hx))
    simp [deleteFirst, ha, ih2]

/-- The POST handler on a valid body whose id is not stored, without faults. -/
theorem postHandler_fresh (coll : Collection) (p : BookPayload)
    (hI : (bind p).ID ≠ "") (hT : (bind p).Title ≠ "") (hA : (bind p).Author ≠ "")
    (hfresh : ∀ x ∈ coll.docs, x.ID ≠ (bind p).ID) :
    postHandler noFaults coll (some p) =
      (⟨StatusCreated, "message", "Book created successfully"⟩,
       { docs := coll.docs ++ [{ newBook (bind p) with MongoID := coll.nextOid }],
         nextOid := coll.nextOid + 1,
         log := coll.log ++ [.find, .cursorAll, .insertOne] }) := by
  have hv : ¬ ((bind p).ID == "" || (bind p).Title == "" || (bind p).Author == "") = true := by
    simp [hI, hT, hA]
  have h0 : ¬ 0 < countId (bind p).ID coll.docs := by
    rw [countId_pos_iff]
    rintro ⟨x, hx, hxe⟩
    exact hfresh x hx hxe
  simp only [postHandler, if_neg hv, createBook_noFaults, if_neg h0]

theorem read_eq (coll : Collection) : read coll = coll.docs.map toResponse := by
  simp only [read, getHandler_noFaults]
  cases coll.docs <;> simp [JsonBody.items]

theorem filter_read_fresh (docs : List BookStore) (b : String)
    (hfresh : ∀ x ∈ docs, x.ID ≠ b) :
    (docs.map toResponse).filter (fun r => r.ID == b) = [] := by
  rw [List.filter_eq_nil_iff]
  intro r hr
  obtain ⟨x, hx, rfl⟩ := List.mem_map.1 hr
  simpa [toResponse] using hfresh x hx

/-- The records after the Create of the round trip. -/
theorem afterCreate_eq (coll : Collection) (b T A : String)
    (hb : b ≠ "") (hT : T ≠ "") (hA : A ≠ "") (hfresh : ∀ x ∈ coll.docs, x.ID ≠ b) :
    postHandler noFaults coll (some (createBody b T A)) =
      (⟨StatusCreated, "message", "Book created successfully"⟩,
       { docs := coll.docs ++ [⟨coll.nextOid, b, T, A, "", "", ""⟩],
         nextOid := coll.nextOid + 1,
         log := coll.log ++ [.find, .cursorAll, .insertOne] }) :=
  postHandler_fresh coll (createBody b T A) hb hT hA hfresh

/-- The records after the Update of the round trip. -/
theorem afterUpdate_eq (coll : Collection) (b T A T2 A2 : String)
    (hb : b ≠ "") (hT : T ≠ "") (hA : A ≠ "") (hT2 : T2 ≠ "") (hA2 : A2 ≠ "")
    (hfresh : ∀ x ∈ coll.docs, x.ID ≠ b) :
    putHandler noFaults (afterCreate coll b T A) b (some (updateBody T2 A2)) =
      (⟨StatusOK, "message", "Book updated successfully"⟩,
       { docs := coll.docs ++ [⟨coll.nextOid, b, T2, A2, "", "", ""⟩],
         nextOid := coll.nextOid + 1,
         log := coll.log ++ [.find, .cursorAll, .insertOne, .updateOne] }) := by
  have hn : ∀ x ∈ coll.docs, (Filter.idEq b).sel x = false :=
    fun x hx => (sel_idEq_false_iff b x).2 (hfresh x hx)
  rw [putHandler_noFaults _ b (updateBody T2 A2) hT2 hA2]
  simp only [afterCreate, afterCreate_eq coll b T A hb hT hA hfresh]
  rw [updateFirst_append_last _ _ _ _ hn ((sel_idEq_true_iff b _).2 rfl)]
  simp [setFields, bind, updateBody]

/-- The records after the Delete of the round trip. -/
theorem afterDelete_eq (coll : Collection) (b T A T2 A2 : String)
    (hb : b ≠ "") (hT : T ≠ "") (hA : A ≠ "") (hT2 : T2 ≠ "") (hA2 : A2 ≠ "")
    (hfresh : ∀ x ∈ coll.docs, x.ID ≠ b) :
    deleteHandler noFaults (afterUpdate coll b T A T2 A2) b =
      (⟨StatusOK, "message", "Book deleted successfully"⟩,
       { docs := coll.docs, nextOid := coll.nextOid + 1,
         log := coll.log ++ [.find, .cursorAll, .insertOne, .updateOne, .deleteOne] }) := by
  have hn : ∀ x ∈ coll.docs, (Filter.idEq b).sel x = false :=
    fun x hx => (sel_idEq_false_iff b x).2 (hfresh x hx)
  rw [deleteHandler_noFaults]
  simp only [afterUpdate, afterUpdate_eq coll b T A T2 A2 hb hT hA hT2 hA2 hfresh]
  rw [deleteFirst_append_last _ _ _ hn ((sel_idEq_true_iff b _).2 rfl)]
  simp

/-- C11. Round trip, without storage faults, for every collection holding no
record with id `b` and non-empty `b`, `T`, `A`, `T2`, `A2`: the Create is
answered 201 and Read then holds exactly one record with id `b`, with title
`T`, author `A` and empty pages, edition and year; the Update on `b` is
answered 200 and Read then holds exactly one record with id `b`, with title
`T2` and author `A2`; the Delete of `b` is answered 200 and Read then holds no
record with id `b` and equals the Read of the original collection. -/
theorem round_trip (coll : Collection) (b T A T2 A2 : String)
    (hb : b ≠ "") (hT : T ≠ "") (hA : A ≠ "") (hT2 : T2 ≠ "") (hA2 : A2 ≠ "")
    (hfresh : ∀ x ∈ coll.docs, x.ID ≠ b) :
    (postHandler noFaults coll (some (createBody b T A))).1.status = StatusCreated ∧
    read (afterCreate coll b T A) = read coll ++ [⟨b, T, A, "", "", ""⟩] ∧
    (read (afterCreate coll b T A)).filter (fun r => r.ID == b) = [⟨b, T, A, "", "", ""⟩] ∧
    (putHandler noFaults (afterCreate coll b T A) b (some (updateBody T2 A2))).1.status =
      StatusOK ∧
    (read (afterUpdate coll b T A T2 A2)).filter (fun r => r.ID == b) =
      [⟨b, T2, A2, "", "", ""⟩] ∧
    (deleteHandler noFaults (afterUpdate coll b T A T2 A2) b).1.status = StatusOK ∧
    (read (afterDelete coll b T A T2 A2)).filter (fun r => r.ID == b) = [] ∧
    read (afterDelete coll b T A T2 A2) = read coll := by
  have h1 := afterCreate_eq coll b T A hb hT hA hfresh
  have h2 := afterUpdate_eq coll b T A T2 A2 hb hT hA hT2 hA2 hfresh
  have h3 := afterDelete_eq coll b T A T2 A2 hb hT hA hT2 hA2 hfresh
  have hf := filter_read_fresh coll.docs b hfresh
  refine ⟨by rw [h1], ?_, ?_, by rw [h2], ?_, by rw [h3], ?_, ?_⟩
  · simp [read_eq, afterCreate, h1, toResponse]
  · simp [read_eq, afterCreate, h1, toResponse, List.filter_append, hf]
  · simp [read_eq, afterUpdate, h2, toResponse, List.filter_append, hf]
  · simp [read_eq, afterDelete, h3, hf]
  · simp [read_eq, afterDelete, h3]

theorem round_trip_witness :
    (∀ x ∈ ([⟨7, "a", "T0", "A0", "E0", "P0", "Y0"⟩] : List BookStore), x.ID ≠ "b1") ∧
    read (afterCreate
        { docs := [⟨7, "a", "T0", "A0", "E0", "P0", "Y0"⟩], nextOid := 8, log := [] }
        "b1" "T" "A") =
      [⟨"a", "T0", "A0", "P0", "E0", "Y0"⟩, ⟨"b1", "T", "A", "", "", ""⟩] ∧
    (read (afterUpdate
        { docs := [⟨7, "a", "T0", "A0", "E0", "P0", "Y0"⟩], nextOid := 8, log := [] }
        "b1" "T" "A" "T2" "A2")).filter (fun r => r.ID == "b1") =
      [⟨"b1", "T2", "A2", "", "", ""⟩] ∧
    read (afterDelete
        { docs := [⟨7, "a", "T0", "A0", "E0", "P0", "Y0"⟩], nextOid := 8, log := [] }
        "b1" "T" "A" "T2" "A2") = [⟨"a", "T0", "A0", "P0", "E0", "Y0"⟩] :=
  ⟨by decide, by decide,
   (round_trip { docs := [⟨7, "a", "T0", "A0", "E0", "P0", "Y0"⟩], nextOid := 8, log := [] }
      "b1" "T" "A" "T2" "A2" (by decide) (by decide) (by decide) (by decide) (by decide)
      (by decide)).2.2.2.2.1,
   by decide⟩

/-! ## Startup -/

theorem retryLoop_attempts (outcomes : Nat → Attempt) (r i : Nat) (err : Option String) :
    (retryLoop outcomes r i err).1 ≤ i + r := by
  induction r generalizing i err with
  | zero => simp [retryLoop]
  | succ r ih =>
    rw [retryLoop]
    split
    · simp only; omega
    · rename_i e _
      have := ih (i + 1) (some e)
      omega

/-- The loop stops at the first successful attempt. -/
theorem retryLoop_success (outcomes : Nat → Attempt) (r i k : Nat) (err : Option String)
    (hk : k < r) (hfail : ∀ j < k, connectToMongoDB (outcomes (i + j)) ≠ none)
    (hok : connectToMongoDB (outcomes (i + k)) = none) :
    retryLoop outcomes r i err = (i + k + 1, none) := by
  induction r generalizing i k err with
  | zero => omega
  | succ r ih =>
    rw [retryLoop]
    cases k with
    | zero =>
      rw [Nat.add_zero] at hok
      simp [hok]
    | succ k =>
      have h0 : connectToMongoDB (outcomes i) ≠ none := by
        have := hfail 0 (by omega)
        simpa using this
      cases hc : connectToMongoDB (outcomes i) with
      | none => exact absurd hc h0
      | some e =>
        simp only
        have := ih (i + 1) k (some e) (by omega)
          (fun j hj => by
            have := hfail (j + 1) (by omega)
            rwa [show i + (j + 1) = i + 1 + j by omega] at this)
          (by rwa [show i + (k + 1) = i + 1 + k by omega] at hok)
        rw [this]
        congr 1
        omega

/-- When every attempt of the budget fails the loop makes them all and ends
with the error of the last one. -/
theorem retryLoop_exhausted (outcomes : Nat → Attempt) (r i : Nat) (err : Option String)
    (hr : 0 < r) (hfail : ∀ j < r, connectToMongoDB (outcomes (i + j)) ≠ none) :
    ∃ e, connectToMongoDB (outcomes (i + r - 1)) = some e ∧
      retryLoop outcomes r i err = (i + r, some e) := by
  induction r generalizing i err with
  | zero => omega
  | succ r ih =>
    rw [retryLoop]
    have h0 : connectToMongoDB (outcomes i) ≠ none := by
      have := hfail 0 (by omega)
      simpa using this
    cases hc : connectToMongoDB (outcomes i) with
    | none => exact absurd hc h0
    | some e =>
      simp only
      cases r with
      | zero => exact ⟨e, by simpa using hc, by simp [retryLoop]⟩
      | succ r =>
        obtain ⟨e2, he2, hl⟩ := ih (i + 1) (some e) (by omega)
          (fun j hj => by
            have := hfail (j + 1) (by omega)
            rwa [show i + (j + 1) = i + 1 + j by omega] at this)
        refine ⟨e2, ?_, ?_⟩
        · rwa [show i + (r + 1 + 1) - 1 = i + 1 + (r + 1) - 1 by omega]
        · rw [hl]
          congr 1
          omega

/-- C12 as stated fails for the Update service: when all five attempts of
books-put fail it does not abort, it goes on to serve without a connection. -/
theorem put_startup_degrades :
    (∀ j < 5, connectToMongoDB ((fun _ => ⟨some "connection refused", none⟩ :
      Nat → Attempt) j) ≠ none) ∧
    BooksPut.main (fun _ => ⟨some "connection refused", none⟩) = .serving 5 false ∧
    (BooksPut.main (fun _ => ⟨some "connection refused", none⟩)).serves = true := by
  refine ⟨?_, ?_, ?_⟩ <;> decide

/-- C12, amended. For every sequence of connect-then-ping outcomes: each
service makes at most its budget of attempts (10 for Create and Delete, 5 for
Update and Read) and stops at the first success, serving with a connection;
when every attempt of the budget fails, the Create and the Delete service
panic after the last attempt and never begin serving, while the Read and the
Update service go on to serve without a connection. -/
theorem startup_policy (outcomes : Nat → Attempt) :
    ((BooksPost.main outcomes).attempts ≤ 10 ∧ (BooksDelete.main outcomes).attempts ≤ 10 ∧
      (BooksPut.main outcomes).attempts ≤ 5 ∧ (BooksGet.main outcomes).attempts ≤ 5) ∧
    (∀ k, (∀ j < k, connectToMongoDB (outcomes j) ≠ none) →
      connectToMongoDB (outcomes k) = none →
      (k < 10 → BooksPost.main outcomes = .serving (k + 1) true ∧
        BooksDelete.main outcomes = .serving (k + 1) true) ∧
      (k < 5 → BooksPut.main outcomes = .serving (k + 1) true ∧
        BooksGet.main outcomes = .serving (k + 1) true)) ∧
    ((∀ j < 10, connectToMongoDB (outcomes j) ≠ none) →
      ∃ e, connectToMongoDB (outcomes 9) = some e ∧
        BooksPost.main outcomes =
          .aborted 10 ("Failed to connect to MongoDB after 10 attempts: " ++ e) ∧
        BooksDelete.main outcomes =
          .aborted 10 ("Failed to connect to MongoDB after 10 attempts: " ++ e) ∧
        (BooksPost.main outcomes).serves = false ∧
        (BooksDelete.main outcomes).serves = false) ∧
    ((∀ j < 5, connectToMongoDB (outcomes j) ≠ none) →
      BooksPut.main outcomes = .serving 5 false ∧ BooksGet.main outcomes = .serving 5 false ∧
      (BooksPut.main outcomes).serves = true ∧ (BooksGet.main outcomes).serves = true) := by
  have h10 := retryLoop_attempts outcomes 10 0 none
  have h5 := retryLoop_attempts outcomes 5 0 none
  refine ⟨⟨?_, ?_, ?_, ?_⟩, ?_, ?_, ?_⟩
  · unfold BooksPost.main
    split <;> rename_i heq <;> rw [heq] at h10 <;> simpa [Startup.attempts] using h10
  · unfold BooksDelete.main
    split <;> rename_i heq <;> rw [heq] at h10 <;> simpa [Startup.attempts] using h10
  · unfold BooksPut.main
    split <;> rename_i heq <;> rw [heq] at h5 <;> simpa [Startup.attempts] using h5
  · unfold BooksGet.main
    split <;> rename_i heq <;> rw [heq] at h5 <;> simpa [Startup.attempts] using h5
  · intro k hfail hok
    have hf : ∀ j < k, connectToMongoDB (outcomes (0 + j)) ≠ none := by
      intro j hj; rw [Nat.zero_add]; exact hfail j hj
    have ho : connectToMongoDB (outcomes (0 + k)) = none := by rw [Nat.zero_add]; exact hok
    constructor
    · intro hk
      have := retryLoop_success outcomes 10 0 k none hk hf ho
      simp [BooksPost.main, BooksDelete.main, this]
    · intro hk
      have := retryLoop_success outcomes 5 0 k none hk hf ho
      simp [BooksPut.main, BooksGet.main, this]
  · intro hfail
    obtain ⟨e, he, hl⟩ := retryLoop_exhausted outcomes 10 0 none (by omega)
      (fun j hj => by rw [Nat.zero_add]; exact hfail j hj)
    refine ⟨e, by simpa using he, ?_, ?_, ?_, ?_⟩ <;>
      simp [BooksPost.main, BooksDelete.main, hl, Startup.serves]
  · intro hfail
    obtain ⟨e, _, hl⟩ := retryLoop_exhausted outcomes 5 0 none (by omega)
      (fun j hj => by rw [Nat.zero_add]; exact hfail j hj)
    simp [BooksPut.main, BooksGet.main, hl, Startup.serves]

theorem startup_policy_witness :
    BooksPost.main (fun i => if i < 3 then ⟨none, some "no reachable servers"⟩ else ⟨none, none⟩) =
      .serving 4 true ∧
    (BooksDelete.main (fun _ => ⟨some "connection refused", none⟩)).serves = false ∧
    BooksGet.main (fun _ => ⟨some "connection refused", none⟩) = .serving 5 false :=
  ⟨by decide,
   by
    obtain ⟨_, _, _, _, _, h⟩ := (startup_policy (fun _ => ⟨some "connection refused", none⟩)).2.2.1
      (by decide)
    exact h,
   ((startup_policy (fun _ => ⟨some "connection refused", none⟩)).2.2.2 (by decide)).2.1⟩

end Bookstore
